import Mathlib

/-!
Direct3D 12 HEVC hardware decoding glue and encoder orchestration.

A shallow embedding of `libavcodec/d3d12va_hevc.c` together with the parts of
the encoder orchestration layer declared in `libavcodec/d3d12va_encode.h` and
`libavcodec/vaapi_encode.h`.

Conventions of the embedding:

* C `unsigned` / `UINT` / `uint32_t` values are natural numbers, and every
  operation that can wrap is written with an explicit `% 2 ^ 32`;
  `UINT64` values use `% 2 ^ 64`.
* Pointers are natural-number addresses, `NULL` is address `0`.  Host memory
  is a function from addresses to bytes.  The mapped GPU buffer is a function
  from byte offsets (relative to `mapped_data`) to bytes.
* Fixed-size C arrays are lists; a write is `List.set`, a read is `List.getD`.
* A call into a function that lives outside the translated file is recorded
  in the result of the caller (an outcome constructor carrying the arguments).
-/

namespace D3D12VAHevc

/-! ## Constants -/

/-- The capacity of the slice table: `#define MAX_SLICES 256`. -/
def MAX_SLICES : Nat := 256

/-- The macro `#define START_CODE 65536`. -/
def START_CODE : Nat := 65536

/-- The macro `#define START_CODE_SIZE 3`. -/
def START_CODE_SIZE : Nat := 3

/-- The errno value `ERANGE` of `<errno.h>` (34 on the supported platforms). -/
def ERANGE : Int := 34

/-- The errno value `EINVAL` of `<errno.h>` (22 on the supported platforms). -/
def EINVAL : Int := 22

/-- The macro `AVERROR(e)` of `libavutil/error.h`: errno values are positive,
so the error code is the negated errno. -/
def AVERROR (e : Int) : Int := -e

/-- The profile value `FF_PROFILE_HEVC_MAIN` of `libavcodec/avcodec.h`. -/
def FF_PROFILE_HEVC_MAIN : Int := 1

/-- The profile value `FF_PROFILE_HEVC_MAIN_10` of `libavcodec/avcodec.h`. -/
def FF_PROFILE_HEVC_MAIN_10 : Int := 2

/-- The profile value `FF_PROFILE_HEVC_MAIN_STILL_PICTURE` of
`libavcodec/avcodec.h`. -/
def FF_PROFILE_HEVC_MAIN_STILL_PICTURE : Int := 3

/-- The profile value `FF_PROFILE_HEVC_REXT` of `libavcodec/avcodec.h`. -/
def FF_PROFILE_HEVC_REXT : Int := 4

/-- Number of elements of `DXVA_PicParams_HEVC.RefPicList`
(`FF_ARRAY_ELEMS(ctx_pic->pp.RefPicList)`, declared with 15 entries in
`dxva.h`). -/
def RefPicList_ELEMS : Nat := 15

/-! ## Data model -/

/-- The slice control record `DXVA_Slice_HEVC_Short` of `dxva.h`: two `UINT`
fields and one `USHORT` field. -/
structure DXVA_Slice_HEVC_Short where
  BSNALunitDataLocation : Nat
  SliceBytesInBuffer : Nat
  wBadSliceChopping : Nat
deriving DecidableEq, Repr, Inhabited

/-- The fields of `DXVA_PicParams_HEVC` that `d3d12va_hevc.c` reads.  The
structure is filled by `ff_dxva2_hevc_fill_picture_parameters`, which is
outside the translated file. -/
structure DXVA_PicParams_HEVC where
  sps_max_dec_pic_buffering_minus1 : Nat
  dwCodingParamToolFlags : Nat
deriving DecidableEq, Repr, Inhabited

/-- The scaling lists `DXVA_Qmatrix_HEVC`; the translated file only passes
them on, so the content is kept as raw bytes. -/
structure DXVA_Qmatrix_HEVC where
  raw : List Nat
deriving DecidableEq, Repr, Inhabited

/-- The per-picture private data `HEVCDecodePictureContext`.  The array
`slice_short[MAX_SLICES]` is a list; `bitstream` is an address, `0` for
`NULL`. -/
structure HEVCDecodePictureContext where
  pp : DXVA_PicParams_HEVC
  qm : DXVA_Qmatrix_HEVC
  slice_count : Nat
  slice_short : List DXVA_Slice_HEVC_Short
  bitstream : Nat
  bitstream_size : Nat
deriving DecidableEq, Repr, Inhabited

/-- The GUIDs a decode configuration can select. -/
inductive D3D12_VIDEO_DECODE_PROFILE where
  | HEVC_MAIN
  | HEVC_MAIN10
deriving DecidableEq, Repr

/-- The part of `D3D12VADecodeContext` written by `d3d12va_hevc.c`:
`cfg.DecodeProfile` (`none` while it has not been assigned). -/
structure D3D12VADecodeContext where
  cfg_DecodeProfile : Option D3D12_VIDEO_DECODE_PROFILE
deriving DecidableEq, Repr, Inhabited

/-- The record `D3D12_VIDEO_DECODE_COMPRESSED_BITSTREAM`: the resource handle,
and the `UINT64` fields `Offset` and `Size`. -/
structure D3D12_VIDEO_DECODE_COMPRESSED_BITSTREAM where
  pBuffer : Nat
  Offset : Nat
  Size : Nat
deriving DecidableEq, Repr, Inhabited

/-- The argument kinds of `D3D12_VIDEO_DECODE_ARGUMENT_TYPE`. -/
inductive D3D12_VIDEO_DECODE_ARGUMENT_TYPE where
  | PICTURE_PARAMETERS
  | INVERSE_QUANTIZATION_MATRIX
  | SLICE_CONTROL
deriving DecidableEq, Repr, Inhabited

/-- What the `pData` pointer of a frame argument designates. -/
inductive FrameArgumentData where
  | null
  | pp
  | qm
  | slice_short
deriving DecidableEq, Repr, Inhabited

/-- One entry `D3D12_VIDEO_DECODE_FRAME_ARGUMENT`: the kind (the field `Type`
of the C record, a reserved word here), the `UINT` byte size and the object
`pData` points to. -/
structure D3D12_VIDEO_DECODE_FRAME_ARGUMENT where
  ArgType : D3D12_VIDEO_DECODE_ARGUMENT_TYPE
  Size : Nat
  pData : FrameArgumentData
deriving DecidableEq, Repr, Inhabited

/-- The record `D3D12_VIDEO_DECODE_INPUT_STREAM_ARGUMENTS`, with the array
`FrameArguments` as a list and `ReferenceFrames.NumTexture2Ds` flattened. -/
structure D3D12_VIDEO_DECODE_INPUT_STREAM_ARGUMENTS where
  NumFrameArguments : Nat
  FrameArguments : List D3D12_VIDEO_DECODE_FRAME_ARGUMENT
  ReferenceFrames_NumTexture2Ds : Nat
  CompressedBitstream : D3D12_VIDEO_DECODE_COMPRESSED_BITSTREAM
deriving DecidableEq, Repr, Inhabited

/-- A buffer resource `ID3D12Resource`: its handle, the `HRESULT` that
`ID3D12Resource_Map` returns for it, and the bytes of its mapping. -/
structure ID3D12Resource where
  handle : Nat
  map_hr : Int
  data : Nat → Nat

/-- The macro `FAILED(hr)`: an `HRESULT` is a failure when negative. -/
def FAILED (hr : Int) : Bool := decide (hr < 0)

/-! ## Slice collection -/

/-- The function `fill_slice_short`: clear the record, then store position
and size. -/
def fill_slice_short (position size : Nat) : DXVA_Slice_HEVC_Short :=
  { BSNALunitDataLocation := position
    SliceBytesInBuffer := size
    wBadSliceChopping := 0 }

/-- The function `d3d12va_hevc_start_frame`.  `ctx_present` says whether
`D3D12VA_DECODE_CONTEXT(avctx)` is non-`NULL`; `pp` and `qm` are what the two
external fill functions write into the picture context. -/
def d3d12va_hevc_start_frame (ctx_present : Bool) (pp : DXVA_PicParams_HEVC)
    (qm : DXVA_Qmatrix_HEVC) (ctx_pic : HEVCDecodePictureContext) :
    Int × HEVCDecodePictureContext :=
  if !ctx_present then
    (-1, ctx_pic)
  else
    (0, { ctx_pic with
            pp := pp
            qm := qm
            slice_count := 0
            bitstream_size := 0
            bitstream := 0 })

/-- The function `d3d12va_hevc_decode_slice`.  `buffer` is the address of the
slice data, `size` its `uint32_t` length.  The pointer difference is converted
to `unsigned`, and `bitstream_size` is an `unsigned` sum. -/
def d3d12va_hevc_decode_slice (ctx_pic : HEVCDecodePictureContext)
    (buffer size : Nat) : Int × HEVCDecodePictureContext :=
  if ctx_pic.slice_count ≥ MAX_SLICES then
    (AVERROR ERANGE, ctx_pic)
  else
    let bitstream := if ctx_pic.bitstream = 0 then buffer else ctx_pic.bitstream
    let bitstream_size := (ctx_pic.bitstream_size + size) % 2 ^ 32
    let position := (((buffer : Int) - (bitstream : Int)) % 2 ^ 32).toNat
    (0, { ctx_pic with
            bitstream := bitstream
            bitstream_size := bitstream_size
            slice_short :=
              ctx_pic.slice_short.set ctx_pic.slice_count (fill_slice_short position size)
            slice_count := (ctx_pic.slice_count + 1) % 2 ^ 32 })

/-! ## Packing the bitstream into the mapped buffer -/

/-- The store `*(uint32_t *)p = v` at byte offset `off`, little-endian: byte
`k` of the four receives `(v / 256 ^ k) % 256`. -/
def store32le (mapped : Nat → Nat) (off v : Nat) : Nat → Nat :=
  fun a => if off ≤ a ∧ a < off + 4 then (v / 256 ^ (a - off)) % 256 else mapped a

/-- The call `memcpy(dst + doff, src + soff, n)` with `dst` the mapped buffer
and `src` host memory. -/
def memcpy (mapped : Nat → Nat) (doff : Nat) (mem : Nat → Nat) (soff n : Nat) :
    Nat → Nat :=
  fun a => if doff ≤ a ∧ a < doff + n then mem (soff + (a - doff)) else mapped a

/-- The variables the loop of `update_input_arguments` changes: the slice
table, the content of the mapped buffer and `mapped_ptr - mapped_data`. -/
structure PackState where
  slice_short : List DXVA_Slice_HEVC_Short
  mapped : Nat → Nat
  mapped_ptr : Nat

/-- One iteration of the loop of `update_input_arguments`, for index `i`. -/
def pack_slice (mem : Nat → Nat) (bitstream : Nat) (st : PackState) (i : Nat) :
    PackState :=
  let slice := st.slice_short.getD i default
  let position := slice.BSNALunitDataLocation
  let size := slice.SliceBytesInBuffer
  let slice1 :=
    { slice with
        SliceBytesInBuffer := (slice.SliceBytesInBuffer + START_CODE_SIZE) % 2 ^ 32
        BSNALunitDataLocation := st.mapped_ptr % 2 ^ 32 }
  let mapped1 := store32le st.mapped st.mapped_ptr START_CODE
  let ptr1 := st.mapped_ptr + START_CODE_SIZE
  let mapped2 := memcpy mapped1 ptr1 mem (bitstream + position) size
  { slice_short := st.slice_short.set i slice1
    mapped := mapped2
    mapped_ptr := ptr1 + size }

/-- The loop `for (i = 0; i < ctx_pic->slice_count; i++)`. -/
def pack_slices (mem : Nat → Nat) (bitstream : Nat) (count : Nat) (st : PackState) :
    PackState :=
  (List.range count).foldl (pack_slice mem bitstream) st

/-- Everything `update_input_arguments` returns or changes: the return value,
the picture context, the input arguments, the buffer resource, and the
argument `sps_max_dec_pic_buffering_minus1` of the call to
`ff_d3d12va_refresh_ref_frame_list` (`none` when the call is not made). -/
structure UpdateResult where
  ret : Int
  ctx_pic : HEVCDecodePictureContext
  input_args : D3D12_VIDEO_DECODE_INPUT_STREAM_ARGUMENTS
  buffer : ID3D12Resource
  refresh_ref_frame_list : Option Nat

/-- The function `update_input_arguments`.  `sizeof_slice` is
`sizeof(DXVA_Slice_HEVC_Short)` and `mem` is host memory, from which the slice
data is read. -/
def update_input_arguments (sizeof_slice : Nat) (mem : Nat → Nat)
    (ctx_pic : HEVCDecodePictureContext)
    (input_args : D3D12_VIDEO_DECODE_INPUT_STREAM_ARGUMENTS)
    (buffer : ID3D12Resource) : UpdateResult :=
  if FAILED buffer.map_hr then
    { ret := AVERROR EINVAL
      ctx_pic := ctx_pic
      input_args := input_args
      buffer := buffer
      refresh_ref_frame_list := none }
  else
    let st := pack_slices mem ctx_pic.bitstream ctx_pic.slice_count
      { slice_short := ctx_pic.slice_short, mapped := buffer.data, mapped_ptr := 0 }
    let args : D3D12_VIDEO_DECODE_FRAME_ARGUMENT :=
      { ArgType := D3D12_VIDEO_DECODE_ARGUMENT_TYPE.SLICE_CONTROL
        Size := (sizeof_slice * ctx_pic.slice_count) % 2 ^ 32
        pData := FrameArgumentData.slice_short }
    { ret := 0
      ctx_pic := { ctx_pic with slice_short := st.slice_short }
      input_args :=
        { input_args with
            CompressedBitstream :=
              { pBuffer := buffer.handle, Offset := 0, Size := st.mapped_ptr % 2 ^ 64 }
            FrameArguments := input_args.FrameArguments.set input_args.NumFrameArguments args
            NumFrameArguments := (input_args.NumFrameArguments + 1) % 2 ^ 32
            ReferenceFrames_NumTexture2Ds :=
              (ctx_pic.pp.sps_max_dec_pic_buffering_minus1 + 1) % 2 ^ 32 }
      buffer := { buffer with data := st.mapped }
      refresh_ref_frame_list := some ctx_pic.pp.sps_max_dec_pic_buffering_minus1 }

/-- The packed stream as the description of the layout words it: for each
slice of the table, in order, the three bytes `00 00 01` followed by the
`SliceBytesInBuffer` bytes of host memory that start at
`bitstream + BSNALunitDataLocation`. -/
def packed_bitstream (mem : Nat → Nat) (bitstream : Nat) :
    List DXVA_Slice_HEVC_Short → List Nat
  | [] => []
  | s :: rest =>
      ([0, 0, 1] ++
        (List.range s.SliceBytesInBuffer).map
          (fun k => mem (bitstream + s.BSNALunitDataLocation + k))) ++
      packed_bitstream mem bitstream rest

/-- The packed size of the first `k` slices of a table: the sum of
`SliceBytesInBuffer + 3` over them. -/
def packed_offset (table : List DXVA_Slice_HEVC_Short) (k : Nat) : Nat :=
  ((table.take k).map (fun s => s.SliceBytesInBuffer + START_CODE_SIZE)).sum

/-- What one iteration leaves in a slice entry: the size grown by the start
code and the location replaced by the offset in the mapped buffer, both as
32-bit values. -/
def relocated (s : DXVA_Slice_HEVC_Short) (off : Nat) : DXVA_Slice_HEVC_Short :=
  { s with
      SliceBytesInBuffer := (s.SliceBytesInBuffer + START_CODE_SIZE) % 2 ^ 32
      BSNALunitDataLocation := off % 2 ^ 32 }

/-! ## Finishing a frame -/

/-- How `d3d12va_hevc_end_frame` ends: it returns a value itself, or it
returns whatever `ff_d3d12va_common_end_frame` returns, called with the picture
parameters and their size, the quantisation matrix (`none` for `NULL`) and its
size, and `update_input_arguments` as the callback. -/
inductive EndFrameOutcome where
  | returned (ret : Int)
  | ff_d3d12va_common_end_frame (pp : DXVA_PicParams_HEVC) (pp_size : Nat)
      (qm : Option DXVA_Qmatrix_HEVC) (qm_size : Nat)
deriving DecidableEq, Repr

/-- The function `d3d12va_hevc_end_frame`.  `sizeof_pp` and `sizeof_qm` are
`sizeof(ctx_pic->pp)` and `sizeof(ctx_pic->qm)`; `scale` is
`dwCodingParamToolFlags & 1`. -/
def d3d12va_hevc_end_frame (sizeof_pp sizeof_qm : Nat)
    (ctx_pic : HEVCDecodePictureContext) : EndFrameOutcome :=
  let scale := ctx_pic.pp.dwCodingParamToolFlags % 2
  if ctx_pic.slice_count ≤ 0 ∨ ctx_pic.bitstream_size ≤ 0 then
    EndFrameOutcome.returned (-1)
  else
    EndFrameOutcome.ff_d3d12va_common_end_frame ctx_pic.pp sizeof_pp
      (if scale ≠ 0 then some ctx_pic.qm else none)
      (if scale ≠ 0 then sizeof_qm else 0)

/-! ## Opening the decoder -/

/-- How `d3d12va_hevc_decode_init` ends: it returns a value itself, or it
returns whatever `ff_d3d12va_decode_init(avctx, max_num_ref)` returns, called
on the decode context as it then is. -/
inductive DecodeInitOutcome where
  | returned (ret : Int) (ctx : D3D12VADecodeContext)
  | ff_d3d12va_decode_init (ctx : D3D12VADecodeContext) (max_num_ref : Nat)
deriving DecidableEq, Repr

/-- The function `d3d12va_hevc_decode_init`: the `switch` on `avctx->profile`,
with `FF_PROFILE_HEVC_MAIN` sharing the `default` label. -/
def d3d12va_hevc_decode_init (profile : Int) (ctx : D3D12VADecodeContext) :
    DecodeInitOutcome :=
  if profile = FF_PROFILE_HEVC_MAIN_10 then
    DecodeInitOutcome.ff_d3d12va_decode_init
      { ctx with cfg_DecodeProfile := some D3D12_VIDEO_DECODE_PROFILE.HEVC_MAIN10 }
      RefPicList_ELEMS
  else if profile = FF_PROFILE_HEVC_MAIN_STILL_PICTURE then
    DecodeInitOutcome.returned (AVERROR EINVAL) ctx
  else
    DecodeInitOutcome.ff_d3d12va_decode_init
      { ctx with cfg_DecodeProfile := some D3D12_VIDEO_DECODE_PROFILE.HEVC_MAIN }
      RefPicList_ELEMS

/-! ## Frames in progress -/

/-- The picture contexts a frame can be in: the one a successful
`d3d12va_hevc_start_frame` leaves (from any previous content of the 256-entry
table), and the one any call of `d3d12va_hevc_decode_slice`, accepted or
rejected, leaves from such a context. -/
inductive Reachable : HEVCDecodePictureContext → Prop where
  | start_frame (pp : DXVA_PicParams_HEVC) (qm : DXVA_Qmatrix_HEVC)
      (ctx_pic : HEVCDecodePictureContext)
      (harray : ctx_pic.slice_short.length = MAX_SLICES) :
      Reachable (d3d12va_hevc_start_frame true pp qm ctx_pic).2
  | decode_slice (ctx_pic : HEVCDecodePictureContext) (buffer size : Nat)
      (hprev : Reachable ctx_pic) :
      Reachable (d3d12va_hevc_decode_slice ctx_pic buffer size).2

/-! ## Sequences of slice calls -/

/-- The picture context after the calls
`d3d12va_hevc_decode_slice(avctx, buffer, size)` for each `(buffer, size)` of
the list, in order; a rejected call leaves the context as it was. -/
def decode_slices (ctx_pic : HEVCDecodePictureContext) (calls : List (Nat × Nat)) :
    HEVCDecodePictureContext :=
  calls.foldl (fun c call => (d3d12va_hevc_decode_slice c call.1 call.2).2) ctx_pic

/-- The number of calls of the sequence that returned 0. -/
def accepted_calls : HEVCDecodePictureContext → List (Nat × Nat) → Nat
  | _, [] => 0
  | ctx_pic, call :: rest =>
      (if (d3d12va_hevc_decode_slice ctx_pic call.1 call.2).1 = 0 then 1 else 0)
        + accepted_calls (d3d12va_hevc_decode_slice ctx_pic call.1 call.2).2 rest

/-- The calls for slices of the given sizes laid out back to back from
`buffer`: each slice buffer begins where the previous one ended. -/
def consecutive_calls (buffer : Nat) : List Nat → List (Nat × Nat)
  | [] => []
  | size :: rest => (buffer, size) :: consecutive_calls (buffer + size) rest

/-! ## The writes of the packing loop -/

/-- A write of `len` bytes to the mapped buffer at byte offset `off`. -/
structure WriteEvent where
  off : Nat
  len : Nat
deriving DecidableEq, Repr, Inhabited

/-- Whether a write touches the byte at offset `a`. -/
def WriteEvent.covers (w : WriteEvent) (a : Nat) : Bool :=
  decide (w.off ≤ a) && decide (a < w.off + w.len)

/-- The two writes of one iteration of the loop of `update_input_arguments`,
in program order: the 4-byte store of `START_CODE` at `mapped_ptr`, then the
`memcpy` of the slice bytes at `mapped_ptr + START_CODE_SIZE`. -/
def pack_slice_writes (st : PackState) (i : Nat) : List WriteEvent :=
  [{ off := st.mapped_ptr, len := 4 },
   { off := st.mapped_ptr + START_CODE_SIZE,
     len := (st.slice_short.getD i default).SliceBytesInBuffer }]

/-- The writes of the first `count` iterations of the loop, in program order;
iteration `k` starts from the state the first `k` iterations leave. -/
def pack_slices_writes (mem : Nat → Nat) (bitstream : Nat) (st : PackState) :
    Nat → List WriteEvent
  | 0 => []
  | k + 1 =>
      pack_slices_writes mem bitstream st k
        ++ pack_slice_writes (pack_slices mem bitstream k st) k

/-- The writes `update_input_arguments` makes to the mapped buffer, in program
order (none when the mapping fails). -/
def update_input_arguments_writes (mem : Nat → Nat) (ctx_pic : HEVCDecodePictureContext)
    (buffer : ID3D12Resource) : List WriteEvent :=
  if FAILED buffer.map_hr then
    []
  else
    pack_slices_writes mem ctx_pic.bitstream
      { slice_short := ctx_pic.slice_short, mapped := buffer.data, mapped_ptr := 0 }
      ctx_pic.slice_count

/-- Whether some write of the list touches the byte at offset `a`. -/
def written (writes : List WriteEvent) (a : Nat) : Bool :=
  writes.any (fun w => w.covers a)

/-- A picture context with a 256-entry table, as it is before a frame starts. -/
def blank_ctx_pic : HEVCDecodePictureContext :=
  { pp := default
    qm := default
    slice_count := 0
    slice_short := List.replicate 256 default
    bitstream := 0
    bitstream_size := 0 }

/-- The picture context of a started frame. -/
def started_ctx_pic : HEVCDecodePictureContext :=
  (d3d12va_hevc_start_frame true
    { sps_max_dec_pic_buffering_minus1 := 3, dwCodingParamToolFlags := 1 } { raw := [] }
    blank_ctx_pic).2

/-! ## Sample inputs -/

/-- A picture context holding three slices of sizes 2, 0 and 3 taken from
address 1000. -/
def sample_ctx_pic : HEVCDecodePictureContext :=
  { pp := { sps_max_dec_pic_buffering_minus1 := 3, dwCodingParamToolFlags := 1 }
    qm := { raw := [] }
    slice_count := 3
    slice_short :=
      [fill_slice_short 0 2, fill_slice_short 2 0, fill_slice_short 2 3]
        ++ List.replicate 253 default
    bitstream := 1000
    bitstream_size := 5 }

/-- A picture context whose single slice has the largest 32-bit size. -/
def huge_ctx_pic : HEVCDecodePictureContext :=
  { pp := { sps_max_dec_pic_buffering_minus1 := 3, dwCodingParamToolFlags := 1 }
    qm := { raw := [] }
    slice_count := 1
    slice_short := fill_slice_short 0 4294967295 :: List.replicate 255 default
    bitstream := 1000
    bitstream_size := 4294967295 }

/-- Input arguments with one frame argument already present. -/
def sample_input_args : D3D12_VIDEO_DECODE_INPUT_STREAM_ARGUMENTS :=
  { NumFrameArguments := 1
    FrameArguments := List.replicate 10 default
    ReferenceFrames_NumTexture2Ds := 0
    CompressedBitstream := default }

/-- A buffer resource filled with `0xff` whose mapping returns `hr`. -/
def sample_buffer (hr : Int) : ID3D12Resource :=
  { handle := 77, map_hr := hr, data := fun _ => 255 }

/-- Host memory whose byte at address `a` is `a % 256`. -/
def sample_mem : Nat → Nat := fun a => a % 256

end D3D12VAHevc

namespace HWEncode

/-! ## Encoder orchestration: declarations of the two headers -/

/-- The macro `#define D3D12VA_VIDEO_ENC_ASYNC_DEPTH 8` of `d3d12va_encode.h`. -/
def D3D12VA_VIDEO_ENC_ASYNC_DEPTH : Nat := 8

/-- The record `VAAPIEncodeSlice` of `vaapi_encode.h` (the pointer
`codec_slice_params` is left out). -/
structure VAAPIEncodeSlice where
  index : Nat
  row_start : Nat
  row_size : Nat
  block_start : Nat
  block_size : Nat
deriving DecidableEq, Repr, Inhabited

/-- The record `D3D12VAEncodeRCMode` of `d3d12va_encode.h`; the four last
fields are the flags "uses bitrate parameters", "supports maxrate distinct
from bitrate", "uses quality value", "supports HRD/VBV parameters". -/
structure D3D12VAEncodeRCMode where
  mode : Int
  name : String
  d3d12_mode : Nat
  bitrate : Int
  maxrate : Int
  quality : Int
  hrd : Int
deriving DecidableEq, Repr, Inhabited

/-- The record `VAAPIEncodeRCMode` of `vaapi_encode.h`. -/
structure VAAPIEncodeRCMode where
  mode : Int
  name : String
  supported : Int
  va_mode : Nat
  bitrate : Int
  maxrate : Int
  quality : Int
  hrd : Int
deriving DecidableEq, Repr, Inhabited

/-- The tile fields of `VAAPIEncodeContext`: `tile_cols`, `tile_rows`, the
arrays `col_width`, `row_height`, `col_bd` and `row_bd`. -/
structure TileStructure where
  tile_cols : Nat
  tile_rows : Nat
  col_width : List Nat
  row_height : List Nat
  col_bd : List Nat
  row_bd : List Nat
deriving DecidableEq, Repr, Inhabited

/-- The error taxonomy of the orchestration layer. -/
inductive EncodeError where
  | UnsupportedConfiguration
  | ResourceExhausted
  | DeviceError
  | SynchronizationTimeout
  | PartitionOverflow
  | ContractViolation
deriving DecidableEq, Repr

/-! ## Slice partitioner -/

/-- Modelled from the spec: the row count of slice `i`.  The function that
fills `VAAPIEncodePicture.slices` is not among the translated sources, only
the record `VAAPIEncodeSlice` and the context fields `slice_block_rows`,
`slice_block_cols`, `nb_slices` are.  Block-rows are partitioned as evenly as
possible across the requested slice count: every slice receives
`rows / nb_slices` rows, and the deterministic remainder rule is "earlier
slices get the extra row". -/
def slice_row_size (rows nb_slices i : Nat) : Nat :=
  rows / nb_slices + (if i < rows % nb_slices then 1 else 0)

/-- Modelled from the spec: the slices number `index`, `index + 1`, ... (`count` of
them) of the partition, the first one starting at block-row `row_start`.  Each
slice records its starting block row, row count, starting block index and
block count; the function producing them is not among the translated
sources. -/
def make_row_slices_from (rows cols nb_slices : Nat) :
    (count : Nat) → (index row_start : Nat) → List VAAPIEncodeSlice
  | 0, _, _ => []
  | count + 1, index, row_start =>
      { index := index
        row_start := row_start
        row_size := slice_row_size rows nb_slices index
        block_start := row_start * cols
        block_size := slice_row_size rows nb_slices index * cols } ::
      make_row_slices_from rows cols nb_slices count (index + 1)
        (row_start + slice_row_size rows nb_slices index)

/-- Modelled from the spec: the slice partitioner for a frame of
`slice_block_rows × slice_block_cols` coding blocks and `nb_slices` requested
slices (its code is not among the translated sources). -/
def make_row_slices (slice_block_rows slice_block_cols nb_slices : Nat) :
    List VAAPIEncodeSlice :=
  make_row_slices_from slice_block_rows slice_block_cols nb_slices nb_slices 0 0

/-- The block-row at which slice `i` starts under the chosen remainder rule,
in closed form. -/
def slice_row_start (rows nb_slices i : Nat) : Nat :=
  i * (rows / nb_slices) + min i (rows % nb_slices)

/-! ## Tile partitioner -/

/-- Modelled from the spec: the extent of tile column (or row) `i` out of `n`
over `extent` blocks.  The function that fills `col_width`, `row_height`,
`col_bd` and `row_bd` is not among the translated sources.  The grid is divided
as evenly as possible, with any remainder blocks assigned to the last column
or row. -/
def tile_extent (extent n i : Nat) : Nat :=
  if i + 1 = n then extent / n + extent % n else extent / n

/-- Modelled from the spec: the extents of all `n` tile columns (or rows); the
function computing them is not among the translated sources. -/
def tile_extents (extent n : Nat) : List Nat :=
  (List.range n).map (tile_extent extent n)

/-- Modelled from the spec: the cumulative boundary offsets of a list of
extents, starting from `bd`; the function computing them is not among the
translated sources. -/
def tile_boundaries : List Nat → Nat → List Nat
  | [], bd => [bd]
  | w :: ws, bd => bd :: tile_boundaries ws (bd + w)

/-- Modelled from the spec: the tile structure of a grid of `cols × rows`
blocks divided into `tile_cols × tile_rows` tiles; the function that fills
these context fields is not among the translated sources. -/
def init_tile_structure (cols rows tile_cols tile_rows : Nat) : TileStructure :=
  { tile_cols := tile_cols
    tile_rows := tile_rows
    col_width := tile_extents cols tile_cols
    row_height := tile_extents rows tile_rows
    col_bd := tile_boundaries (tile_extents cols tile_cols) 0
    row_bd := tile_boundaries (tile_extents rows tile_rows) 0 }

/-! ## Rate control validation -/

/-- The flags of a rate-control mode descriptor that say which parameters are
meaningful for the mode. -/
structure RCFlags where
  bitrate : Bool
  maxrate : Bool
  quality : Bool
  hrd : Bool
deriving DecidableEq, Repr, Inhabited

/-- The flags of a `D3D12VAEncodeRCMode` (a C `int` is a true flag when
non-zero). -/
def D3D12VAEncodeRCMode.flags (m : D3D12VAEncodeRCMode) : RCFlags :=
  { bitrate := decide (m.bitrate ≠ 0)
    maxrate := decide (m.maxrate ≠ 0)
    quality := decide (m.quality ≠ 0)
    hrd := decide (m.hrd ≠ 0) }

/-- The flags of a `VAAPIEncodeRCMode`. -/
def VAAPIEncodeRCMode.flags (m : VAAPIEncodeRCMode) : RCFlags :=
  { bitrate := decide (m.bitrate ≠ 0)
    maxrate := decide (m.maxrate ≠ 0)
    quality := decide (m.quality ≠ 0)
    hrd := decide (m.hrd ≠ 0) }

/-- The rate-control parameters of a requested configuration; `none` is an
absent parameter. -/
structure RateControlRequest where
  bitrate : Option Nat
  maxrate : Option Nat
  quality : Option Nat
  hrd_buffer_size : Option Nat
deriving DecidableEq, Repr, Inhabited

/-- Modelled from the spec: rate control validation for a chosen mode
descriptor.  The validating function is not among the translated sources, only
the descriptor records are.  All fields required by the descriptor's flags
(bitrate, maxrate, quality, HRD) must be present, and they must not conflict:
`maxrate < bitrate` is an error when both are meaningful. -/
def validate_rate_control (flags : RCFlags) (req : RateControlRequest) :
    Except EncodeError Unit :=
  if flags.bitrate && req.bitrate.isNone then
    Except.error EncodeError.UnsupportedConfiguration
  else if flags.maxrate && req.maxrate.isNone then
    Except.error EncodeError.UnsupportedConfiguration
  else if flags.quality && req.quality.isNone then
    Except.error EncodeError.UnsupportedConfiguration
  else if flags.hrd && req.hrd_buffer_size.isNone then
    Except.error EncodeError.UnsupportedConfiguration
  else
    match req.bitrate, req.maxrate with
    | some b, some m =>
        if flags.bitrate && flags.maxrate && decide (m < b) then
          Except.error EncodeError.UnsupportedConfiguration
        else
          Except.ok ()
    | _, _ => Except.ok ()

/-! ## Picture lifecycle and command submission -/

/-- The encode states of a picture record. -/
inductive PictureState where
  | free
  | acquired
  | parameters_filled
  | submitted
  | awaiting_completion
  | completed
deriving DecidableEq, Repr, Inhabited

/-- A picture record: its encode state and the fence value recorded at
submission. -/
structure Picture where
  state : PictureState
  fence_value : Nat
deriving DecidableEq, Repr, Inhabited

/-- The part of the encode session context that bounds the work in flight:
the configured async depth, the picture records, the number of idle
command-recording contexts in the reuse queue (`allocator_queue`) and the last
fence value issued (`sync_ctx`). -/
structure Session where
  async_depth : Nat
  pictures : List Picture
  allocator_queue : Nat
  fence_value : Nat
deriving DecidableEq, Repr, Inhabited

/-- Whether a picture is in the `submitted` or `awaiting-completion` state. -/
def Picture.in_flight (p : Picture) : Bool :=
  p.state = PictureState.submitted || p.state = PictureState.awaiting_completion

/-- The number of pictures in the `submitted` / `awaiting-completion` states. -/
def Session.in_flight (s : Session) : Nat :=
  s.pictures.countP Picture.in_flight

/-- Modelled from the spec: a session as `open()` leaves it for a given async
depth (the session code is not among the translated sources): no picture
record, an empty reuse queue, no fence issued. -/
def open_session (async_depth : Nat) : Session :=
  { async_depth := async_depth, pictures := [], allocator_queue := 0, fence_value := 0 }

/-- Replace the state of picture `i`. -/
def Session.set_state (s : Session) (i : Nat) (st : PictureState) : Session :=
  { s with pictures := s.pictures.set i { s.pictures.getD i default with state := st } }

/-- The state of picture `i` (`free` for a record that does not exist). -/
def Session.state_of (s : Session) (i : Nat) : PictureState :=
  (s.pictures.getD i default).state

/-- Modelled from the spec: `acquire()` (not among the translated sources).
It obtains a free picture record, or allocates one, bounded by the async
depth, and moves it to `acquired`; it fails with `ResourceExhausted` when the
limit is reached and no record is free. -/
def acquire (s : Session) : Except EncodeError Session :=
  let i := s.pictures.findIdx (fun p => p.state = PictureState.free)
  if i < s.pictures.length then
    Except.ok (s.set_state i PictureState.acquired)
  else if s.pictures.length < s.async_depth then
    Except.ok
      { s with pictures := s.pictures ++ [{ state := PictureState.acquired, fence_value := 0 }] }
  else
    Except.error EncodeError.ResourceExhausted

/-- Modelled from the spec: `fill_parameters()` (not among the translated
sources).  `hook_ok` says whether the codec hook accepts the configuration. -/
def fill_parameters (s : Session) (i : Nat) (hook_ok : Bool) : Except EncodeError Session :=
  if s.state_of i = PictureState.acquired then
    if hook_ok then
      Except.ok (s.set_state i PictureState.parameters_filled)
    else
      Except.error EncodeError.UnsupportedConfiguration
  else
    Except.error EncodeError.ContractViolation

/-- Modelled from the spec: `submit()` (not among the translated sources).  A
free recording context is taken from the reuse queue, or one is created if the
queue is empty and the in-flight count is below the async-depth limit; the
picture records the next fence value and becomes `submitted`. -/
def submit (s : Session) (i : Nat) : Except EncodeError Session :=
  if s.state_of i = PictureState.parameters_filled then
    if 0 < s.allocator_queue then
      Except.ok
        { s with
            pictures := s.pictures.set i
              { state := PictureState.submitted, fence_value := s.fence_value + 1 }
            allocator_queue := s.allocator_queue - 1
            fence_value := s.fence_value + 1 }
    else if s.in_flight < s.async_depth then
      Except.ok
        { s with
            pictures := s.pictures.set i
              { state := PictureState.submitted, fence_value := s.fence_value + 1 }
            fence_value := s.fence_value + 1 }
    else
      Except.error EncodeError.ResourceExhausted
  else
    Except.error EncodeError.ContractViolation

/-- Modelled from the spec: the first half of `wait()` (not among the
translated sources): the caller starts waiting for the fence of a submitted
picture. -/
def begin_wait (s : Session) (i : Nat) : Except EncodeError Session :=
  if s.state_of i = PictureState.submitted then
    Except.ok (s.set_state i PictureState.awaiting_completion)
  else
    Except.error EncodeError.ContractViolation

/-- Modelled from the spec: the second half of `wait()` (not among the
translated sources).  When the fence is signalled the picture is `completed`
and its recording context returns to the reuse queue; a timeout is the fatal
`SynchronizationTimeout`. -/
def end_wait (s : Session) (i : Nat) (signalled : Bool) : Except EncodeError Session :=
  if s.state_of i = PictureState.awaiting_completion then
    if signalled then
      Except.ok
        { s.set_state i PictureState.completed with
            allocator_queue := s.allocator_queue + 1 }
    else
      Except.error EncodeError.SynchronizationTimeout
  else
    Except.error EncodeError.ContractViolation

/-- Modelled from the spec: `release()` (not among the translated sources):
a completed picture returns to `free`. -/
def release (s : Session) (i : Nat) : Except EncodeError Session :=
  if s.state_of i = PictureState.completed then
    Except.ok (s.set_state i PictureState.free)
  else
    Except.error EncodeError.ContractViolation

/-- The operations a caller can invoke on a session. -/
inductive Op where
  | acquire
  | fill_parameters (i : Nat) (hook_ok : Bool)
  | submit (i : Nat)
  | begin_wait (i : Nat)
  | end_wait (i : Nat) (signalled : Bool)
  | release (i : Nat)
deriving DecidableEq, Repr

/-- Invoke one operation. -/
def apply_op (s : Session) : Op → Except EncodeError Session
  | Op.acquire => acquire s
  | Op.fill_parameters i hook_ok => fill_parameters s i hook_ok
  | Op.submit i => submit s i
  | Op.begin_wait i => begin_wait s i
  | Op.end_wait i signalled => end_wait s i signalled
  | Op.release i => release s i

/-- The session after one operation: a failed operation reports its error and
leaves the session as it was. -/
def step (s : Session) (op : Op) : Session :=
  match apply_op s op with
  | Except.ok s1 => s1
  | Except.error _ => s

/-- The session after a sequence of operations. -/
def run (s : Session) (ops : List Op) : Session :=
  ops.foldl step s

end HWEncode


namespace D3D12VAHevc

/-! ## Theorems: slice collection -/

/-- C1: when the slice table is already full (`slice_count` is `MAX_SLICES`
or more), `d3d12va_hevc_decode_slice` returns `AVERROR(ERANGE)`, a non-zero
value, for every buffer and size, and the picture context (`slice_count`,
`bitstream`, `bitstream_size`, every `slice_short` entry) is unchanged. -/
theorem decode_slice_full_table_erange (ctx_pic : HEVCDecodePictureContext)
    (buffer size : Nat) (h : MAX_SLICES ≤ ctx_pic.slice_count) :
    (d3d12va_hevc_decode_slice ctx_pic buffer size).1 = AVERROR ERANGE ∧
    (d3d12va_hevc_decode_slice ctx_pic buffer size).1 ≠ 0 ∧
    (d3d12va_hevc_decode_slice ctx_pic buffer size).2 = ctx_pic ∧
    (d3d12va_hevc_decode_slice ctx_pic buffer size).2.slice_count = ctx_pic.slice_count ∧
    (d3d12va_hevc_decode_slice ctx_pic buffer size).2.bitstream = ctx_pic.bitstream ∧
    (d3d12va_hevc_decode_slice ctx_pic buffer size).2.bitstream_size
      = ctx_pic.bitstream_size ∧
    (d3d12va_hevc_decode_slice ctx_pic buffer size).2.slice_short = ctx_pic.slice_short := by
  have hge : ctx_pic.slice_count ≥ MAX_SLICES := h
  simp only [d3d12va_hevc_decode_slice, if_pos hge]
  refine ⟨trivial, ?_, trivial, trivial, trivial, trivial, trivial⟩
  decide

/-- A full table of 256 entries with `slice_count = 256`: the call is rejected
with `AVERROR(ERANGE)` and nothing changes. -/
theorem decode_slice_full_table_erange_witness :
    (d3d12va_hevc_decode_slice
        { pp := default, qm := default, slice_count := 256,
          slice_short := List.replicate 256 (fill_slice_short 0 1),
          bitstream := 4096, bitstream_size := 256 } 8192 5).1 = AVERROR ERANGE ∧
    (d3d12va_hevc_decode_slice
        { pp := default, qm := default, slice_count := 256,
          slice_short := List.replicate 256 (fill_slice_short 0 1),
          bitstream := 4096, bitstream_size := 256 } 8192 5).2.slice_count = 256 :=
  ⟨(decode_slice_full_table_erange _ 8192 5 (by decide)).1,
   (decode_slice_full_table_erange _ 8192 5 (by decide)).2.2.2.1⟩


/-! ## Lemmas on the packing loop -/

theorem pack_slices_succ (mem : Nat → Nat) (bitstream k : Nat) (st : PackState) :
    pack_slices mem bitstream (k + 1) st
      = pack_slice mem bitstream (pack_slices mem bitstream k st) k := by
  simp [pack_slices, List.range_succ, List.foldl_append]

theorem packed_offset_zero (table : List DXVA_Slice_HEVC_Short) :
    packed_offset table 0 = 0 := by
  simp [packed_offset]

theorem packed_offset_succ (table : List DXVA_Slice_HEVC_Short) (k : Nat)
    (hk : k < table.length) :
    packed_offset table (k + 1)
      = packed_offset table k + START_CODE_SIZE
          + (table.getD k default).SliceBytesInBuffer := by
  simp only [packed_offset, List.take_succ, List.getElem?_eq_getElem hk, Option.toList,
    List.map_append, List.sum_append, List.map_cons, List.map_nil, List.sum_cons,
    List.sum_nil, List.getD_eq_getElem _ _ hk]
  omega

theorem packed_bitstream_append (mem : Nat → Nat) (bitstream : Nat)
    (l₁ l₂ : List DXVA_Slice_HEVC_Short) :
    packed_bitstream mem bitstream (l₁ ++ l₂)
      = packed_bitstream mem bitstream l₁ ++ packed_bitstream mem bitstream l₂ := by
  induction l₁ with
  | nil => simp [packed_bitstream]
  | cons s rest ih => simp [packed_bitstream, ih]

theorem packed_bitstream_take_succ (mem : Nat → Nat) (bitstream : Nat)
    (table : List DXVA_Slice_HEVC_Short) (k : Nat) (hk : k < table.length) :
    packed_bitstream mem bitstream (table.take (k + 1))
      = packed_bitstream mem bitstream (table.take k) ++
          ([0, 0, 1] ++
            (List.range (table.getD k default).SliceBytesInBuffer).map
              (fun t => mem (bitstream + (table.getD k default).BSNALunitDataLocation + t))) := by
  rw [List.take_succ, List.getElem?_eq_getElem hk, packed_bitstream_append,
    List.getD_eq_getElem _ _ hk]
  simp [packed_bitstream]

theorem packed_bitstream_length (mem : Nat → Nat) (bitstream : Nat)
    (table : List DXVA_Slice_HEVC_Short) :
    (packed_bitstream mem bitstream table).length = packed_offset table table.length := by
  induction table with
  | nil => simp [packed_bitstream, packed_offset]
  | cons s rest ih =>
    simp only [packed_offset, List.take_length] at ih
    simp [packed_bitstream, packed_offset, ih, START_CODE_SIZE]
    omega

/-- The bytes one iteration leaves at and after `mapped_ptr`. -/
theorem pack_slice_segment (mem : Nat → Nat) (bitstream : Nat) (st : PackState) (i : Nat) :
    (List.range (START_CODE_SIZE + (st.slice_short.getD i default).SliceBytesInBuffer)).map
        (fun t => (pack_slice mem bitstream st i).mapped (st.mapped_ptr + t))
      = [0, 0, 1] ++
          (List.range (st.slice_short.getD i default).SliceBytesInBuffer).map
            (fun t => mem (bitstream + (st.slice_short.getD i default).BSNALunitDataLocation + t)) := by
  rw [List.range_add, List.map_append]
  congr 1
  · simp [START_CODE_SIZE, List.range_succ, pack_slice, memcpy, store32le, START_CODE]
  · rw [List.map_map]
    apply List.map_congr_left
    intro t ht
    have ht' := List.mem_range.mp ht
    simp only [Function.comp, pack_slice, memcpy, START_CODE_SIZE]
    rw [if_pos (by omega)]
    congr 1
    omega

/-- An iteration writes no byte below `mapped_ptr`. -/
theorem pack_slice_below (mem : Nat → Nat) (bitstream : Nat) (st : PackState) (i a : Nat)
    (ha : a < st.mapped_ptr) :
    (pack_slice mem bitstream st i).mapped a = st.mapped a := by
  simp only [pack_slice, memcpy, store32le, START_CODE_SIZE]
  rw [if_neg (by omega), if_neg (by omega)]


theorem getD_set_self (l : List DXVA_Slice_HEVC_Short) (i : Nat) (a : DXVA_Slice_HEVC_Short)
    (h : i < l.length) : (l.set i a).getD i default = a := by
  simp [List.getD_eq_getElem?_getD, List.getElem?_set, h]

theorem getD_set_other (l : List DXVA_Slice_HEVC_Short) (i j : Nat) (a : DXVA_Slice_HEVC_Short)
    (h : i ≠ j) : (l.set i a).getD j default = l.getD j default := by
  simp [List.getD_eq_getElem?_getD, List.getElem?_set_ne h]

/-- The loop invariant of `update_input_arguments` after `k` iterations. -/
theorem pack_slices_inv (mem : Nat → Nat) (bitstream : Nat)
    (table : List DXVA_Slice_HEVC_Short) (m0 : Nat → Nat) (k : Nat) (hk : k ≤ table.length) :
    (pack_slices mem bitstream k ⟨table, m0, 0⟩).slice_short.length = table.length ∧
    (∀ j, k ≤ j →
      (pack_slices mem bitstream k ⟨table, m0, 0⟩).slice_short.getD j default
        = table.getD j default) ∧
    (∀ j, j < k →
      (pack_slices mem bitstream k ⟨table, m0, 0⟩).slice_short.getD j default
        = relocated (table.getD j default) (packed_offset table j)) ∧
    (pack_slices mem bitstream k ⟨table, m0, 0⟩).mapped_ptr = packed_offset table k ∧
    (List.range (packed_offset table k)).map
        (pack_slices mem bitstream k ⟨table, m0, 0⟩).mapped
      = packed_bitstream mem bitstream (table.take k) := by
  induction k with
  | zero =>
    simp [pack_slices, packed_offset, packed_bitstream]
  | succ k ih =>
    obtain ⟨hlen, hrest, hdone, hptr, hbytes⟩ := ih (by omega)
    have hklt : k < table.length := by omega
    rw [pack_slices_succ]
    generalize pack_slices mem bitstream k ⟨table, m0, 0⟩ = st at hlen hrest hdone hptr hbytes
    have hcur : st.slice_short.getD k default = table.getD k default := hrest k (le_refl k)
    have hkst : k < st.slice_short.length := by omega
    refine ⟨?_, ?_, ?_, ?_, ?_⟩
    · simp [pack_slice, hlen]
    · intro j hj
      have hne : k ≠ j := by omega
      simp only [pack_slice]
      rw [getD_set_other _ _ _ _ hne]
      exact hrest j (by omega)
    · intro j hj
      by_cases hjk : j = k
      · subst hjk
        simp only [pack_slice]
        rw [getD_set_self _ _ _ hkst, hcur, hptr]
        rfl
      · have hne : k ≠ j := fun h => hjk h.symm
        simp only [pack_slice]
        rw [getD_set_other _ _ _ _ hne]
        exact hdone j (by omega)
    · rw [packed_offset_succ table k hklt, ← hcur, ← hptr]
      simp [pack_slice]
    · rw [packed_bitstream_take_succ mem bitstream table k hklt,
        packed_offset_succ table k hklt, Nat.add_assoc, List.range_add, List.map_append,
        List.map_map]
      congr 1
      · rw [← hbytes]
        apply List.map_congr_left
        intro a ha
        have ha' := List.mem_range.mp ha
        exact pack_slice_below mem bitstream st k a (by omega)
      · have hseg := pack_slice_segment mem bitstream st k
        rw [hcur, hptr] at hseg
        exact hseg


theorem packed_offset_le (table : List DXVA_Slice_HEVC_Short) (k : Nat)
    (h32 : ∀ s ∈ table, s.SliceBytesInBuffer < 2 ^ 32) :
    packed_offset table k ≤ k * (2 ^ 32 + 2) := by
  induction k with
  | zero => simp [packed_offset]
  | succ k ih =>
    by_cases hk : k < table.length
    · rw [packed_offset_succ table k hk]
      have hmem : table.getD k default ∈ table := by
        rw [List.getD_eq_getElem _ _ hk]
        exact List.getElem_mem hk
      have := h32 _ hmem
      simp only [START_CODE_SIZE]
      rw [Nat.succ_mul]
      omega
    · have hle : table.length ≤ k := by omega
      have h1 : packed_offset table (k + 1) = packed_offset table k := by
        simp only [packed_offset]
        rw [List.take_of_length_le hle, List.take_of_length_le (by omega)]
      rw [h1, Nat.succ_mul]
      omega

theorem update_input_arguments_mapped (sizeof_slice : Nat) (mem : Nat → Nat)
    (ctx_pic : HEVCDecodePictureContext)
    (input_args : D3D12_VIDEO_DECODE_INPUT_STREAM_ARGUMENTS) (buffer : ID3D12Resource)
    (hmap : FAILED buffer.map_hr = false) :
    update_input_arguments sizeof_slice mem ctx_pic input_args buffer =
      { ret := 0
        ctx_pic :=
          { ctx_pic with
              slice_short :=
                (pack_slices mem ctx_pic.bitstream ctx_pic.slice_count
                  ⟨ctx_pic.slice_short, buffer.data, 0⟩).slice_short }
        input_args :=
          { input_args with
              CompressedBitstream :=
                { pBuffer := buffer.handle, Offset := 0,
                  Size :=
                    (pack_slices mem ctx_pic.bitstream ctx_pic.slice_count
                      ⟨ctx_pic.slice_short, buffer.data, 0⟩).mapped_ptr % 2 ^ 64 }
              FrameArguments :=
                input_args.FrameArguments.set input_args.NumFrameArguments
                  { ArgType := D3D12_VIDEO_DECODE_ARGUMENT_TYPE.SLICE_CONTROL
                    Size := (sizeof_slice * ctx_pic.slice_count) % 2 ^ 32
                    pData := FrameArgumentData.slice_short }
              NumFrameArguments := (input_args.NumFrameArguments + 1) % 2 ^ 32
              ReferenceFrames_NumTexture2Ds :=
                (ctx_pic.pp.sps_max_dec_pic_buffering_minus1 + 1) % 2 ^ 32 }
        buffer :=
          { buffer with
              data :=
                (pack_slices mem ctx_pic.bitstream ctx_pic.slice_count
                  ⟨ctx_pic.slice_short, buffer.data, 0⟩).mapped }
        refresh_ref_frame_list := some ctx_pic.pp.sps_max_dec_pic_buffering_minus1 } := by
  simp [update_input_arguments, hmap]

/-! ## Theorems: packing -/

/-- C2: when the buffer map succeeds, for a slice table of `slice_count` (at
most 256) entries with 32-bit sizes, `update_input_arguments` returns 0, stores
`Offset = 0` and `Size` = the sum of `SliceBytesInBuffer + 3` over the table in
`CompressedBitstream`, and the first `Size` bytes of the mapped buffer are the
concatenation, in slice order, of `00 00 01` followed by the slice bytes
`bitstream[location .. location + size)`; slices of size 0 are included. -/
theorem update_input_arguments_packed_content (sizeof_slice : Nat) (mem : Nat → Nat)
    (ctx_pic : HEVCDecodePictureContext)
    (input_args : D3D12_VIDEO_DECODE_INPUT_STREAM_ARGUMENTS) (buffer : ID3D12Resource)
    (hmap : FAILED buffer.map_hr = false)
    (hlen : ctx_pic.slice_short.length = MAX_SLICES)
    (hn : ctx_pic.slice_count ≤ MAX_SLICES)
    (h32 : ∀ s ∈ ctx_pic.slice_short, s.SliceBytesInBuffer < 2 ^ 32) :
    (update_input_arguments sizeof_slice mem ctx_pic input_args buffer).ret = 0 ∧
    (update_input_arguments sizeof_slice mem ctx_pic input_args
        buffer).input_args.CompressedBitstream.Offset = 0 ∧
    (update_input_arguments sizeof_slice mem ctx_pic input_args
        buffer).input_args.CompressedBitstream.Size
      = ((ctx_pic.slice_short.take ctx_pic.slice_count).map
          (fun s => s.SliceBytesInBuffer + 3)).sum ∧
    (List.range
        (update_input_arguments sizeof_slice mem ctx_pic input_args
          buffer).input_args.CompressedBitstream.Size).map
        (update_input_arguments sizeof_slice mem ctx_pic input_args buffer).buffer.data
      = packed_bitstream mem ctx_pic.bitstream
          (ctx_pic.slice_short.take ctx_pic.slice_count) := by
  have hk : ctx_pic.slice_count ≤ ctx_pic.slice_short.length := by omega
  obtain ⟨_, _, _, hptr, hbytes⟩ :=
    pack_slices_inv mem ctx_pic.bitstream ctx_pic.slice_short buffer.data
      ctx_pic.slice_count hk
  have hbound := packed_offset_le ctx_pic.slice_short ctx_pic.slice_count h32
  have hsmall : packed_offset ctx_pic.slice_short ctx_pic.slice_count < 2 ^ 64 := by
    have h256 : ctx_pic.slice_count ≤ 256 := hn
    have : ctx_pic.slice_count * (2 ^ 32 + 2) ≤ 256 * (2 ^ 32 + 2) :=
      Nat.mul_le_mul_right _ h256
    omega
  rw [update_input_arguments_mapped sizeof_slice mem ctx_pic input_args buffer hmap]
  simp only [hptr, Nat.mod_eq_of_lt hsmall]
  refine ⟨trivial, trivial, rfl, hbytes⟩

/-- C5: when `ID3D12Resource_Map` fails, `update_input_arguments` returns
`AVERROR(EINVAL)` (non-zero), and the picture context with every `slice_short`
entry, the input arguments (`CompressedBitstream`, `NumFrameArguments`, the
frame arguments, the reference-frame count), and the buffer are unchanged; the
reference frame list is not refreshed. -/
theorem update_input_arguments_map_failure (sizeof_slice : Nat) (mem : Nat → Nat)
    (ctx_pic : HEVCDecodePictureContext)
    (input_args : D3D12_VIDEO_DECODE_INPUT_STREAM_ARGUMENTS) (buffer : ID3D12Resource)
    (hmap : FAILED buffer.map_hr = true) :
    (update_input_arguments sizeof_slice mem ctx_pic input_args buffer).ret = AVERROR EINVAL ∧
    (update_input_arguments sizeof_slice mem ctx_pic input_args buffer).ret ≠ 0 ∧
    (update_input_arguments sizeof_slice mem ctx_pic input_args buffer).ctx_pic = ctx_pic ∧
    (update_input_arguments sizeof_slice mem ctx_pic input_args
        buffer).ctx_pic.slice_short = ctx_pic.slice_short ∧
    (update_input_arguments sizeof_slice mem ctx_pic input_args buffer).input_args
      = input_args ∧
    (update_input_arguments sizeof_slice mem ctx_pic input_args
        buffer).input_args.CompressedBitstream = input_args.CompressedBitstream ∧
    (update_input_arguments sizeof_slice mem ctx_pic input_args
        buffer).input_args.NumFrameArguments = input_args.NumFrameArguments ∧
    (update_input_arguments sizeof_slice mem ctx_pic input_args
        buffer).input_args.ReferenceFrames_NumTexture2Ds
      = input_args.ReferenceFrames_NumTexture2Ds ∧
    (update_input_arguments sizeof_slice mem ctx_pic input_args buffer).buffer.data
      = buffer.data ∧
    (update_input_arguments sizeof_slice mem ctx_pic input_args
        buffer).refresh_ref_frame_list = none := by
  simp only [update_input_arguments, hmap, if_true]
  refine ⟨trivial, ?_, trivial, trivial, trivial, trivial, trivial, trivial, trivial, trivial⟩
  decide

theorem sample_ctx_pic_length : sample_ctx_pic.slice_short.length = MAX_SLICES := by
  simp only [sample_ctx_pic, MAX_SLICES, List.length_append, List.length_replicate,
    List.length_cons, List.length_nil]

theorem sample_ctx_pic_sizes :
    ∀ s ∈ sample_ctx_pic.slice_short, s.SliceBytesInBuffer < 2 ^ 32 := by
  intro s hs
  simp only [sample_ctx_pic, fill_slice_short, List.mem_append, List.mem_cons,
    List.mem_singleton, List.mem_replicate, List.not_mem_nil, or_false] at hs
  rcases hs with (rfl | rfl | rfl) | ⟨_, rfl⟩ <;> decide


/-- The three-slice sample: the packed size is 14 and both conclusions of the
packing theorem hold for it. -/
theorem update_input_arguments_packed_content_witness :
    (update_input_arguments 10 sample_mem sample_ctx_pic sample_input_args
        (sample_buffer 0)).input_args.CompressedBitstream.Size
      = ((sample_ctx_pic.slice_short.take sample_ctx_pic.slice_count).map
          (fun s => s.SliceBytesInBuffer + 3)).sum ∧
    (List.range
        (update_input_arguments 10 sample_mem sample_ctx_pic sample_input_args
          (sample_buffer 0)).input_args.CompressedBitstream.Size).map
        (update_input_arguments 10 sample_mem sample_ctx_pic sample_input_args
          (sample_buffer 0)).buffer.data
      = packed_bitstream sample_mem sample_ctx_pic.bitstream
          (sample_ctx_pic.slice_short.take sample_ctx_pic.slice_count) :=
  (update_input_arguments_packed_content 10 sample_mem sample_ctx_pic sample_input_args
    (sample_buffer 0) (by decide) sample_ctx_pic_length (by decide)
    sample_ctx_pic_sizes).2.2

/-- A mapping that fails with a negative `HRESULT` on the three-slice sample. -/
theorem update_input_arguments_map_failure_witness :
    (update_input_arguments 10 sample_mem sample_ctx_pic sample_input_args
        (sample_buffer (-2147024809))).ret = AVERROR EINVAL ∧
    (update_input_arguments 10 sample_mem sample_ctx_pic sample_input_args
        (sample_buffer (-2147024809))).ctx_pic = sample_ctx_pic :=
  ⟨(update_input_arguments_map_failure 10 sample_mem sample_ctx_pic sample_input_args
      (sample_buffer (-2147024809)) (by decide)).1,
   (update_input_arguments_map_failure 10 sample_mem sample_ctx_pic sample_input_args
      (sample_buffer (-2147024809)) (by decide)).2.2.1⟩

theorem sample_packed_bytes :
    (List.range 14).map
        (update_input_arguments 10 sample_mem sample_ctx_pic sample_input_args
          (sample_buffer 0)).buffer.data
      = [0, 0, 1, 232, 233, 0, 0, 1, 0, 0, 1, 234, 235, 236] := by
  decide

theorem huge_ctx_pic_eq :
    huge_ctx_pic =
      (d3d12va_hevc_decode_slice
        (d3d12va_hevc_start_frame true
          { sps_max_dec_pic_buffering_minus1 := 3, dwCodingParamToolFlags := 1 } { raw := [] }
          { pp := default, qm := default, slice_count := 0,
            slice_short := List.replicate 256 default, bitstream := 0,
            bitstream_size := 0 }).2
        1000 4294967295).2 := by
  rfl

/-- The picture context with one slice of the largest 32-bit size is what a
started frame holds after one accepted `d3d12va_hevc_decode_slice` call. -/
theorem huge_ctx_pic_reachable : Reachable huge_ctx_pic := by
  rw [huge_ctx_pic_eq]
  exact Reachable.decode_slice _ 1000 4294967295
    (Reachable.start_frame _ _ _ (List.length_replicate 256 _))

/-- C3, as stated, fails: a single slice of size `2 ^ 32 - 1` is left with
`SliceBytesInBuffer = 2`, not `size + 3`, after a successful update. -/
theorem update_input_arguments_size_wraps :
    (update_input_arguments 10 sample_mem huge_ctx_pic sample_input_args
        (sample_buffer 0)).ret = 0 ∧
    (huge_ctx_pic.slice_short.getD 0 default).SliceBytesInBuffer = 4294967295 ∧
    ((update_input_arguments 10 sample_mem huge_ctx_pic sample_input_args
        (sample_buffer 0)).ctx_pic.slice_short.getD 0 default).SliceBytesInBuffer = 2 ∧
    ((update_input_arguments 10 sample_mem huge_ctx_pic sample_input_args
        (sample_buffer 0)).ctx_pic.slice_short.getD 0 default).SliceBytesInBuffer
      ≠ (huge_ctx_pic.slice_short.getD 0 default).SliceBytesInBuffer + 3 := by
  decide

theorem packed_offset_le_succ (table : List DXVA_Slice_HEVC_Short) (k : Nat) :
    packed_offset table k ≤ packed_offset table (k + 1) := by
  by_cases hk : k < table.length
  · rw [packed_offset_succ table k hk]
    omega
  · have hle : table.length ≤ k := by omega
    have h1 : packed_offset table (k + 1) = packed_offset table k := by
      simp only [packed_offset]
      rw [List.take_of_length_le hle, List.take_of_length_le (by omega)]
    omega

theorem packed_offset_mono (table : List DXVA_Slice_HEVC_Short) (i j : Nat) (h : i ≤ j) :
    packed_offset table i ≤ packed_offset table j := by
  induction j with
  | zero =>
    have : i = 0 := by omega
    subst this
    exact le_refl _
  | succ j ih =>
    by_cases hij : i = j + 1
    · subst hij
      exact le_refl _
    · exact le_trans (ih (by omega)) (packed_offset_le_succ table j)

theorem frame_arguments_getD_set (l : List D3D12_VIDEO_DECODE_FRAME_ARGUMENT) (i : Nat)
    (a : D3D12_VIDEO_DECODE_FRAME_ARGUMENT) (h : i < l.length) :
    (l.set i a).getD i default = a := by
  simp [List.getD_eq_getElem?_getD, List.getElem?_set, h]

/-- C3 (amended): after a successful `update_input_arguments` on a table of
`slice_count` (at most 256) entries with original sizes `s_i`, slice `i` has
`SliceBytesInBuffer = (s_i + 3) mod 2^32` and `BSNALunitDataLocation` = (the sum
over `j < i` of `s_j + 3`) `mod 2^32`, and `CompressedBitstream.Size` is the sum
over the whole table.  When that size is below `2^32` the two fields hold the
exact values, so slice 0 starts at 0, each slice starts where the previous one
ends, and the last slice ends at `CompressedBitstream.Size`.  The frame argument
written at the old `NumFrameArguments` is the slice control of size
`sizeof(DXVA_Slice_HEVC_Short) * slice_count`, and `NumFrameArguments` grows by
one. -/
theorem update_input_arguments_relocation (sizeof_slice : Nat) (mem : Nat → Nat)
    (ctx_pic : HEVCDecodePictureContext)
    (input_args : D3D12_VIDEO_DECODE_INPUT_STREAM_ARGUMENTS) (buffer : ID3D12Resource)
    (hmap : FAILED buffer.map_hr = false)
    (hlen : ctx_pic.slice_short.length = MAX_SLICES)
    (hn : ctx_pic.slice_count ≤ MAX_SLICES)
    (h32 : ∀ s ∈ ctx_pic.slice_short, s.SliceBytesInBuffer < 2 ^ 32)
    (hsz : sizeof_slice * MAX_SLICES < 2 ^ 32)
    (hroom : input_args.NumFrameArguments < input_args.FrameArguments.length)
    (hargs : input_args.FrameArguments.length < 2 ^ 32) :
    (update_input_arguments sizeof_slice mem ctx_pic input_args buffer).ret = 0 ∧
    (∀ i, i < ctx_pic.slice_count →
      ((update_input_arguments sizeof_slice mem ctx_pic input_args
          buffer).ctx_pic.slice_short.getD i default).SliceBytesInBuffer
        = ((ctx_pic.slice_short.getD i default).SliceBytesInBuffer + 3) % 2 ^ 32 ∧
      ((update_input_arguments sizeof_slice mem ctx_pic input_args
          buffer).ctx_pic.slice_short.getD i default).BSNALunitDataLocation
        = packed_offset ctx_pic.slice_short i % 2 ^ 32) ∧
    (update_input_arguments sizeof_slice mem ctx_pic input_args
        buffer).input_args.CompressedBitstream.Size
      = packed_offset ctx_pic.slice_short ctx_pic.slice_count ∧
    (packed_offset ctx_pic.slice_short ctx_pic.slice_count < 2 ^ 32 →
      ∀ i, i < ctx_pic.slice_count →
        ((update_input_arguments sizeof_slice mem ctx_pic input_args
            buffer).ctx_pic.slice_short.getD i default).SliceBytesInBuffer
          = (ctx_pic.slice_short.getD i default).SliceBytesInBuffer + 3 ∧
        ((update_input_arguments sizeof_slice mem ctx_pic input_args
            buffer).ctx_pic.slice_short.getD i default).BSNALunitDataLocation
          = packed_offset ctx_pic.slice_short i ∧
        ((update_input_arguments sizeof_slice mem ctx_pic input_args
            buffer).ctx_pic.slice_short.getD i default).BSNALunitDataLocation
          + ((update_input_arguments sizeof_slice mem ctx_pic input_args
              buffer).ctx_pic.slice_short.getD i default).SliceBytesInBuffer
          = packed_offset ctx_pic.slice_short (i + 1)) ∧
    packed_offset ctx_pic.slice_short 0 = 0 ∧
    (update_input_arguments sizeof_slice mem ctx_pic input_args
        buffer).input_args.NumFrameArguments = input_args.NumFrameArguments + 1 ∧
    (update_input_arguments sizeof_slice mem ctx_pic input_args
        buffer).input_args.FrameArguments.getD input_args.NumFrameArguments default
      = { ArgType := D3D12_VIDEO_DECODE_ARGUMENT_TYPE.SLICE_CONTROL
          Size := sizeof_slice * ctx_pic.slice_count
          pData := FrameArgumentData.slice_short } := by
  have hk : ctx_pic.slice_count ≤ ctx_pic.slice_short.length := by omega
  obtain ⟨_, _, hdone, hptr, _⟩ :=
    pack_slices_inv mem ctx_pic.bitstream ctx_pic.slice_short buffer.data
      ctx_pic.slice_count hk
  have hbound := packed_offset_le ctx_pic.slice_short ctx_pic.slice_count h32
  have h256 : ctx_pic.slice_count ≤ 256 := hn
  have hsmall : packed_offset ctx_pic.slice_short ctx_pic.slice_count < 2 ^ 64 := by
    have : ctx_pic.slice_count * (2 ^ 32 + 2) ≤ 256 * (2 ^ 32 + 2) :=
      Nat.mul_le_mul_right _ h256
    omega
  have hsize : sizeof_slice * ctx_pic.slice_count < 2 ^ 32 :=
    lt_of_le_of_lt (Nat.mul_le_mul_left _ hn) hsz
  rw [update_input_arguments_mapped sizeof_slice mem ctx_pic input_args buffer hmap]
  refine ⟨rfl, ?_, ?_, ?_, packed_offset_zero _, ?_, ?_⟩
  · intro i hi
    dsimp only
    rw [hdone i hi]
    exact ⟨rfl, rfl⟩
  · dsimp only
    rw [hptr]
    exact Nat.mod_eq_of_lt hsmall
  · intro hfit i hi
    dsimp only
    rw [hdone i hi]
    have hilt : i < ctx_pic.slice_short.length := by omega
    have hsucc := packed_offset_succ ctx_pic.slice_short i hilt
    have hmono := packed_offset_mono ctx_pic.slice_short (i + 1) ctx_pic.slice_count
      (by omega)
    simp only [START_CODE_SIZE] at hsucc
    simp only [relocated, START_CODE_SIZE]
    have h1 : ((ctx_pic.slice_short.getD i default).SliceBytesInBuffer + 3) % 2 ^ 32
        = (ctx_pic.slice_short.getD i default).SliceBytesInBuffer + 3 :=
      Nat.mod_eq_of_lt (by omega)
    have h2 : packed_offset ctx_pic.slice_short i % 2 ^ 32
        = packed_offset ctx_pic.slice_short i :=
      Nat.mod_eq_of_lt (by omega)
    rw [h1, h2]
    exact ⟨rfl, rfl, by omega⟩
  · exact Nat.mod_eq_of_lt (by omega)
  · dsimp only
    rw [Nat.mod_eq_of_lt hsize]
    exact frame_arguments_getD_set _ _ _ hroom

/-- The three-slice sample with a 10-byte slice record: the argument count
goes from 1 to 2 and the packed size is the table sum. -/
theorem update_input_arguments_relocation_witness :
    (update_input_arguments 10 sample_mem sample_ctx_pic sample_input_args
        (sample_buffer 0)).input_args.CompressedBitstream.Size
      = packed_offset sample_ctx_pic.slice_short sample_ctx_pic.slice_count ∧
    (update_input_arguments 10 sample_mem sample_ctx_pic sample_input_args
        (sample_buffer 0)).input_args.NumFrameArguments
      = sample_input_args.NumFrameArguments + 1 :=
  ⟨(update_input_arguments_relocation 10 sample_mem sample_ctx_pic sample_input_args
      (sample_buffer 0) (by decide) sample_ctx_pic_length (by decide) sample_ctx_pic_sizes
      (by decide) (by decide) (by decide)).2.2.1,
   (update_input_arguments_relocation 10 sample_mem sample_ctx_pic sample_input_args
      (sample_buffer 0) (by decide) sample_ctx_pic_length (by decide) sample_ctx_pic_sizes
      (by decide) (by decide) (by decide)).2.2.2.2.2.1⟩

/-! ## Theorems: the slice table bound -/

theorem start_frame_ok (pp : DXVA_PicParams_HEVC) (qm : DXVA_Qmatrix_HEVC)
    (ctx_pic : HEVCDecodePictureContext) :
    (d3d12va_hevc_start_frame true pp qm ctx_pic).2.slice_count = 0 ∧
    (d3d12va_hevc_start_frame true pp qm ctx_pic).2.slice_short = ctx_pic.slice_short := by
  simp [d3d12va_hevc_start_frame]

theorem decode_slice_count_le (ctx_pic : HEVCDecodePictureContext) (buffer size : Nat)
    (h : ctx_pic.slice_count ≤ MAX_SLICES) :
    (d3d12va_hevc_decode_slice ctx_pic buffer size).2.slice_count ≤ MAX_SLICES := by
  unfold d3d12va_hevc_decode_slice
  split
  · exact h
  · rename_i hlt
    have hlt' : ctx_pic.slice_count < 256 := by
      simp only [MAX_SLICES, ge_iff_le, not_le] at hlt
      exact hlt
    show (ctx_pic.slice_count + 1) % 2 ^ 32 ≤ 256
    rw [Nat.mod_eq_of_lt (by omega)]
    omega

theorem decode_slice_length (ctx_pic : HEVCDecodePictureContext) (buffer size : Nat) :
    (d3d12va_hevc_decode_slice ctx_pic buffer size).2.slice_short.length
      = ctx_pic.slice_short.length := by
  unfold d3d12va_hevc_decode_slice
  split
  · rfl
  · simp

theorem decode_slice_accepts_iff (ctx_pic : HEVCDecodePictureContext) (buffer size : Nat) :
    (d3d12va_hevc_decode_slice ctx_pic buffer size).1 = 0
      ↔ ctx_pic.slice_count < MAX_SLICES := by
  unfold d3d12va_hevc_decode_slice
  split
  · rename_i hge
    constructor
    · intro h
      have hne : AVERROR ERANGE ≠ 0 := by decide
      exact absurd h hne
    · intro h
      omega
  · rename_i hlt
    constructor
    · intro _
      omega
    · intro _
      rfl

/-- C4: in every state reachable from `d3d12va_hevc_start_frame` by any
sequence of `d3d12va_hevc_decode_slice` calls (accepted or rejected),
`slice_count ≤ MAX_SLICES = 256` and the table has its 256 entries; so an
accepted call writes `slice_short[slice_count]` at an index inside the table,
and every index `i < slice_count` that `update_input_arguments` reads is
inside the table. -/
theorem reachable_slice_count_le_max (ctx_pic : HEVCDecodePictureContext)
    (h : Reachable ctx_pic) :
    ctx_pic.slice_count ≤ MAX_SLICES ∧
    MAX_SLICES = 256 ∧
    ctx_pic.slice_short.length = MAX_SLICES ∧
    (∀ buffer size, (d3d12va_hevc_decode_slice ctx_pic buffer size).1 = 0 →
      ctx_pic.slice_count < ctx_pic.slice_short.length) ∧
    (∀ i, i < ctx_pic.slice_count → i < ctx_pic.slice_short.length) := by
  have hinv : ctx_pic.slice_count ≤ MAX_SLICES ∧ ctx_pic.slice_short.length = MAX_SLICES := by
    induction h with
    | start_frame pp qm c harray =>
      obtain ⟨h0, hs⟩ := start_frame_ok pp qm c
      rw [h0, hs]
      exact ⟨Nat.zero_le _, harray⟩
    | decode_slice c buffer size _ ih =>
      exact ⟨decode_slice_count_le c buffer size ih.1,
        (decode_slice_length c buffer size).trans ih.2⟩
  refine ⟨hinv.1, rfl, hinv.2, ?_, ?_⟩
  · intro buffer size hret
    have := (decode_slice_accepts_iff ctx_pic buffer size).mp hret
    omega
  · intro i hi
    omega

/-- A frame started on the three-slice sample and fed one slice of two bytes
is reachable, and satisfies the bound. -/
theorem reachable_slice_count_le_max_witness :
    (d3d12va_hevc_decode_slice
        (d3d12va_hevc_start_frame true default default sample_ctx_pic).2 1000 2).2.slice_count
      ≤ MAX_SLICES :=
  (reachable_slice_count_le_max _
    (Reachable.decode_slice _ 1000 2
      (Reachable.start_frame default default sample_ctx_pic sample_ctx_pic_length))).1

/-! ## Theorems: opening the decoder -/

/-- C6, as stated, fails: the range-extensions profile is neither Main nor
Main 10, yet `d3d12va_hevc_decode_init` does not return an error for it; it
selects the Main decode profile and calls `ff_d3d12va_decode_init`. -/
theorem decode_init_rext_calls_common_init :
    FF_PROFILE_HEVC_REXT ≠ FF_PROFILE_HEVC_MAIN ∧
    FF_PROFILE_HEVC_REXT ≠ FF_PROFILE_HEVC_MAIN_10 ∧
    d3d12va_hevc_decode_init FF_PROFILE_HEVC_REXT { cfg_DecodeProfile := none }
      = DecodeInitOutcome.ff_d3d12va_decode_init
          { cfg_DecodeProfile := some D3D12_VIDEO_DECODE_PROFILE.HEVC_MAIN }
          RefPicList_ELEMS := by
  decide

/-- C6 (amended): `d3d12va_hevc_decode_init` returns an error without calling
`ff_d3d12va_decode_init`, and without touching the decode profile, exactly
when the requested profile is HEVC Main Still Picture; the error is
`AVERROR(EINVAL)`.  For Main 10 it selects `D3D12_VIDEO_DECODE_PROFILE_HEVC_MAIN10`,
for Main and for every other value it selects
`D3D12_VIDEO_DECODE_PROFILE_HEVC_MAIN`, and then it calls
`ff_d3d12va_decode_init`. -/
theorem decode_init_profile_selection (profile : Int) (ctx : D3D12VADecodeContext) :
    ((∃ ret ctx1, d3d12va_hevc_decode_init profile ctx = DecodeInitOutcome.returned ret ctx1)
      ↔ profile = FF_PROFILE_HEVC_MAIN_STILL_PICTURE) ∧
    (profile = FF_PROFILE_HEVC_MAIN_STILL_PICTURE →
      d3d12va_hevc_decode_init profile ctx
        = DecodeInitOutcome.returned (AVERROR EINVAL) ctx ∧ AVERROR EINVAL ≠ 0) ∧
    (profile = FF_PROFILE_HEVC_MAIN_10 →
      d3d12va_hevc_decode_init profile ctx
        = DecodeInitOutcome.ff_d3d12va_decode_init
            { ctx with cfg_DecodeProfile := some D3D12_VIDEO_DECODE_PROFILE.HEVC_MAIN10 }
            RefPicList_ELEMS) ∧
    (profile ≠ FF_PROFILE_HEVC_MAIN_10 → profile ≠ FF_PROFILE_HEVC_MAIN_STILL_PICTURE →
      d3d12va_hevc_decode_init profile ctx
        = DecodeInitOutcome.ff_d3d12va_decode_init
            { ctx with cfg_DecodeProfile := some D3D12_VIDEO_DECODE_PROFILE.HEVC_MAIN }
            RefPicList_ELEMS) ∧
    d3d12va_hevc_decode_init FF_PROFILE_HEVC_MAIN ctx
      = DecodeInitOutcome.ff_d3d12va_decode_init
          { ctx with cfg_DecodeProfile := some D3D12_VIDEO_DECODE_PROFILE.HEVC_MAIN }
          RefPicList_ELEMS := by
  have hne : FF_PROFILE_HEVC_MAIN_STILL_PICTURE ≠ FF_PROFILE_HEVC_MAIN_10 := by decide
  refine ⟨?_, ?_, ?_, ?_, ?_⟩
  · constructor
    · rintro ⟨ret, ctx1, h⟩
      by_contra hp
      unfold d3d12va_hevc_decode_init at h
      rw [if_neg hp] at h
      split at h <;> cases h
    · intro hp
      refine ⟨AVERROR EINVAL, ctx, ?_⟩
      subst hp
      simp [d3d12va_hevc_decode_init, hne]
  · intro hp
    subst hp
    refine ⟨?_, by decide⟩
    simp [d3d12va_hevc_decode_init, hne]
  · intro hp
    subst hp
    simp [d3d12va_hevc_decode_init]
  · intro h1 h2
    simp [d3d12va_hevc_decode_init, h1, h2]
  · have h1 : FF_PROFILE_HEVC_MAIN ≠ FF_PROFILE_HEVC_MAIN_10 := by decide
    have h2 : FF_PROFILE_HEVC_MAIN ≠ FF_PROFILE_HEVC_MAIN_STILL_PICTURE := by decide
    simp [d3d12va_hevc_decode_init, h1, h2]

/-- Main Still Picture is rejected with `AVERROR(EINVAL)`; the unknown profile
value `-99` is opened as Main. -/
theorem decode_init_profile_selection_witness :
    d3d12va_hevc_decode_init FF_PROFILE_HEVC_MAIN_STILL_PICTURE { cfg_DecodeProfile := none }
      = DecodeInitOutcome.returned (AVERROR EINVAL) { cfg_DecodeProfile := none } ∧
    d3d12va_hevc_decode_init (-99) { cfg_DecodeProfile := none }
      = DecodeInitOutcome.ff_d3d12va_decode_init
          { cfg_DecodeProfile := some D3D12_VIDEO_DECODE_PROFILE.HEVC_MAIN }
          RefPicList_ELEMS :=
  ⟨((decode_init_profile_selection FF_PROFILE_HEVC_MAIN_STILL_PICTURE
      { cfg_DecodeProfile := none }).2.1 rfl).1,
   (decode_init_profile_selection (-99) { cfg_DecodeProfile := none }).2.2.2.1
      (by decide) (by decide)⟩

end D3D12VAHevc

namespace HWEncode

/-! ## Theorems: slice partitioner -/

theorem slice_row_start_succ (rows nb_slices i : Nat) :
    slice_row_start rows nb_slices (i + 1)
      = slice_row_start rows nb_slices i + slice_row_size rows nb_slices i := by
  unfold slice_row_start slice_row_size
  rw [Nat.succ_mul]
  split <;> omega

theorem slice_row_start_mono (rows nb_slices i j : Nat) (h : i ≤ j) :
    slice_row_start rows nb_slices i ≤ slice_row_start rows nb_slices j := by
  unfold slice_row_start
  have := Nat.mul_le_mul_right (rows / nb_slices) h
  omega

theorem slice_row_start_total (rows nb_slices : Nat) (h : 0 < nb_slices) :
    slice_row_start rows nb_slices nb_slices = rows := by
  unfold slice_row_start
  have hlt := Nat.mod_lt rows h
  have hdiv := Nat.div_add_mod rows nb_slices
  rw [Nat.min_eq_right (le_of_lt hlt)]
  exact hdiv

theorem make_row_slices_from_length (rows cols nb_slices count index row_start : Nat) :
    (make_row_slices_from rows cols nb_slices count index row_start).length = count := by
  induction count generalizing index row_start with
  | zero => rfl
  | succ k ih => simp [make_row_slices_from, ih]

theorem make_row_slices_from_getD (rows cols nb_slices count index j : Nat) (hj : j < count) :
    (make_row_slices_from rows cols nb_slices count index
        (slice_row_start rows nb_slices index)).getD j default
      = { index := index + j
          row_start := slice_row_start rows nb_slices (index + j)
          row_size := slice_row_size rows nb_slices (index + j)
          block_start := slice_row_start rows nb_slices (index + j) * cols
          block_size := slice_row_size rows nb_slices (index + j) * cols } := by
  induction count generalizing index j with
  | zero => omega
  | succ k ih =>
    cases j with
    | zero => simp [make_row_slices_from]
    | succ j =>
      simp only [make_row_slices_from, List.getD_cons_succ]
      rw [← slice_row_start_succ, ih (index + 1) j (by omega)]
      have : index + 1 + j = index + (j + 1) := by omega
      rw [this]

theorem make_row_slices_from_sum (rows cols nb_slices count index : Nat) :
    ((make_row_slices_from rows cols nb_slices count index
        (slice_row_start rows nb_slices index)).map VAAPIEncodeSlice.row_size).sum
      + slice_row_start rows nb_slices index
      = slice_row_start rows nb_slices (index + count) := by
  induction count generalizing index with
  | zero => simp [make_row_slices_from]
  | succ k ih =>
    simp only [make_row_slices_from, List.map_cons, List.sum_cons]
    rw [← slice_row_start_succ]
    have h := ih (index + 1)
    have e : index + 1 + k = index + (k + 1) := by omega
    rw [e] at h
    have e2 := slice_row_start_succ rows nb_slices index
    omega

theorem make_row_slices_getD (rows cols nb_slices j : Nat) (hj : j < nb_slices) :
    (make_row_slices rows cols nb_slices).getD j default
      = { index := j
          row_start := slice_row_start rows nb_slices j
          row_size := slice_row_size rows nb_slices j
          block_start := slice_row_start rows nb_slices j * cols
          block_size := slice_row_size rows nb_slices j * cols } := by
  have h := make_row_slices_from_getD rows cols nb_slices nb_slices 0 j hj
  have h0 : slice_row_start rows nb_slices 0 = 0 := by simp [slice_row_start]
  rw [h0] at h
  simp only [Nat.zero_add] at h
  exact h

/-- C7: for every valid pair (`0 < nb_slices ≤ rows`), the slice partitioner
produces `nb_slices` slices whose row ranges are contiguous (the first starts
at row 0, each next one starts where the previous one ends, the last ends at
`rows`), non-overlapping and non-empty, and whose row counts add up to `rows`
(`slice_block_rows`). -/
theorem make_row_slices_partition (rows cols nb_slices : Nat)
    (hpos : 0 < nb_slices) (hle : nb_slices ≤ rows) :
    (make_row_slices rows cols nb_slices).length = nb_slices ∧
    ((make_row_slices rows cols nb_slices).getD 0 default).row_start = 0 ∧
    (∀ i, i + 1 < nb_slices →
      ((make_row_slices rows cols nb_slices).getD (i + 1) default).row_start
        = ((make_row_slices rows cols nb_slices).getD i default).row_start
          + ((make_row_slices rows cols nb_slices).getD i default).row_size) ∧
    (∀ i j, i < j → j < nb_slices →
      ((make_row_slices rows cols nb_slices).getD i default).row_start
          + ((make_row_slices rows cols nb_slices).getD i default).row_size
        ≤ ((make_row_slices rows cols nb_slices).getD j default).row_start) ∧
    (∀ i, i < nb_slices →
      0 < ((make_row_slices rows cols nb_slices).getD i default).row_size) ∧
    ((make_row_slices rows cols nb_slices).getD (nb_slices - 1) default).row_start
        + ((make_row_slices rows cols nb_slices).getD (nb_slices - 1) default).row_size
      = rows ∧
    ((make_row_slices rows cols nb_slices).map VAAPIEncodeSlice.row_size).sum = rows := by
  refine ⟨make_row_slices_from_length _ _ _ _ _ _, ?_, ?_, ?_, ?_, ?_, ?_⟩
  · rw [make_row_slices_getD rows cols nb_slices 0 hpos]
    simp [slice_row_start]
  · intro i hi
    rw [make_row_slices_getD rows cols nb_slices (i + 1) hi,
      make_row_slices_getD rows cols nb_slices i (by omega)]
    exact slice_row_start_succ rows nb_slices i
  · intro i j hij hj
    rw [make_row_slices_getD rows cols nb_slices i (by omega),
      make_row_slices_getD rows cols nb_slices j hj]
    show slice_row_start rows nb_slices i + slice_row_size rows nb_slices i
      ≤ slice_row_start rows nb_slices j
    rw [← slice_row_start_succ]
    exact slice_row_start_mono rows nb_slices (i + 1) j hij
  · intro i hi
    rw [make_row_slices_getD rows cols nb_slices i hi]
    show 0 < slice_row_size rows nb_slices i
    have hq : 0 < rows / nb_slices := Nat.div_pos hle hpos
    unfold slice_row_size
    omega
  · rw [make_row_slices_getD rows cols nb_slices (nb_slices - 1) (by omega)]
    show slice_row_start rows nb_slices (nb_slices - 1)
      + slice_row_size rows nb_slices (nb_slices - 1) = rows
    rw [← slice_row_start_succ]
    have e : nb_slices - 1 + 1 = nb_slices := by omega
    rw [e]
    exact slice_row_start_total rows nb_slices hpos
  · have h := make_row_slices_from_sum rows cols nb_slices nb_slices 0
    have h0 : slice_row_start rows nb_slices 0 = 0 := by simp [slice_row_start]
    rw [h0] at h
    simp only [Nat.zero_add, Nat.add_zero] at h
    rw [slice_row_start_total rows nb_slices hpos] at h
    exact h

/-- Ten block-rows in three slices: the sizes are 4, 3, 3, starting at rows
0, 4, 7, and they add up to 10. -/
theorem make_row_slices_partition_witness :
    (make_row_slices 10 4 3).map VAAPIEncodeSlice.row_size = [4, 3, 3] ∧
    (make_row_slices 10 4 3).map VAAPIEncodeSlice.row_start = [0, 4, 7] ∧
    ((make_row_slices 10 4 3).map VAAPIEncodeSlice.row_size).sum = 10 :=
  ⟨by decide, by decide,
   (make_row_slices_partition 10 4 3 (by decide) (by decide)).2.2.2.2.2.2⟩

end HWEncode

namespace HWEncode

/-! ## Theorems: tile partitioner -/

theorem tile_extents_length (extent n : Nat) : (tile_extents extent n).length = n := by
  simp [tile_extents]

theorem tile_extents_getD (extent n i : Nat) (hi : i < n) :
    (tile_extents extent n).getD i 0 = tile_extent extent n i := by
  simp [tile_extents, List.getD_eq_getElem?_getD, List.getElem?_map, List.getElem?_range hi]

theorem tile_extents_prefix_sum (extent m k : Nat) (hk : k ≤ m) :
    ((List.range k).map (tile_extent extent (m + 1))).sum = k * (extent / (m + 1)) := by
  induction k with
  | zero => simp
  | succ k ih =>
    rw [List.range_succ, List.map_append, List.sum_append, ih (by omega), Nat.succ_mul]
    have hne : ¬ (k + 1 = m + 1) := by omega
    simp [tile_extent, hne]

theorem tile_extents_sum (extent n : Nat) (hn : 0 < n) : (tile_extents extent n).sum = extent := by
  obtain ⟨m, rfl⟩ : ∃ m, n = m + 1 := ⟨n - 1, by omega⟩
  unfold tile_extents
  rw [List.range_succ, List.map_append, List.sum_append,
    tile_extents_prefix_sum extent m m (le_refl m)]
  have hdiv := Nat.div_add_mod extent (m + 1)
  have hmul : (m + 1) * (extent / (m + 1)) = m * (extent / (m + 1)) + extent / (m + 1) :=
    Nat.succ_mul _ _
  simp [tile_extent]
  omega

theorem tile_extent_pos (extent n i : Nat) (hn : 0 < n) (hle : n ≤ extent) :
    0 < tile_extent extent n i := by
  have hq : 0 < extent / n := Nat.div_pos hle hn
  unfold tile_extent
  split <;> omega

theorem tile_boundaries_length (ws : List Nat) (bd : Nat) :
    (tile_boundaries ws bd).length = ws.length + 1 := by
  induction ws generalizing bd with
  | nil => rfl
  | cons w ws ih => simp [tile_boundaries, ih]

theorem tile_boundaries_getD (ws : List Nat) (bd i : Nat) (hi : i ≤ ws.length) :
    (tile_boundaries ws bd).getD i 0 = bd + (ws.take i).sum := by
  induction ws generalizing bd i with
  | nil =>
    have : i = 0 := by simpa using hi
    subst this
    simp [tile_boundaries]
  | cons w ws ih =>
    cases i with
    | zero => simp [tile_boundaries]
    | succ i =>
      simp only [tile_boundaries, List.getD_cons_succ, List.take_succ_cons, List.sum_cons]
      rw [ih (bd + w) i (by simpa using hi)]
      omega

theorem take_succ_sum (ws : List Nat) (i : Nat) (hi : i < ws.length) :
    (ws.take (i + 1)).sum = (ws.take i).sum + ws.getD i 0 := by
  rw [List.take_succ, List.getElem?_eq_getElem hi, List.sum_append,
    List.getD_eq_getElem _ _ hi]
  simp

/-- The boundaries of `n` tiles over `extent` blocks, for a valid division. -/
theorem tile_boundaries_spec (extent n : Nat) (hn : 0 < n) (hle : n ≤ extent) :
    (tile_boundaries (tile_extents extent n) 0).length = n + 1 ∧
    (∀ i, i ≤ n →
      (tile_boundaries (tile_extents extent n) 0).getD i 0
        = ((tile_extents extent n).take i).sum) ∧
    (∀ i, i < n →
      (tile_boundaries (tile_extents extent n) 0).getD (i + 1) 0
        = (tile_boundaries (tile_extents extent n) 0).getD i 0
          + (tile_extents extent n).getD i 0) ∧
    (∀ i, i < n →
      (tile_boundaries (tile_extents extent n) 0).getD i 0
        < (tile_boundaries (tile_extents extent n) 0).getD (i + 1) 0) ∧
    (tile_boundaries (tile_extents extent n) 0).getD n 0 = extent := by
  have hlen := tile_extents_length extent n
  have hstep : ∀ i, i < n →
      (tile_boundaries (tile_extents extent n) 0).getD (i + 1) 0
        = (tile_boundaries (tile_extents extent n) 0).getD i 0
          + (tile_extents extent n).getD i 0 := by
    intro i hi
    rw [tile_boundaries_getD _ 0 (i + 1) (by omega), tile_boundaries_getD _ 0 i (by omega),
      take_succ_sum _ i (by omega)]
    omega
  refine ⟨?_, ?_, hstep, ?_, ?_⟩
  · rw [tile_boundaries_length, hlen]
  · intro i hi
    rw [tile_boundaries_getD _ 0 i (by omega)]
    omega
  · intro i hi
    rw [hstep i hi, tile_extents_getD extent n i hi]
    have := tile_extent_pos extent n i hn hle
    omega
  · rw [tile_boundaries_getD _ 0 n (by omega)]
    have htake : (tile_extents extent n).take n = tile_extents extent n :=
      List.take_of_length_le (by omega)
    rw [htake, tile_extents_sum extent n hn]
    omega

/-- C8: for every valid `(cols, rows, tile_cols, tile_rows)`
(`0 < tile_cols ≤ cols`, `0 < tile_rows ≤ rows`), the boundaries
`col_bd[0..tile_cols]` and `row_bd[0..tile_rows]` are strictly increasing, each
boundary is the running sum of the preceding `col_width` / `row_height`
entries, and the last boundary is the full extent (`cols`, respectively
`rows`). -/
theorem tile_boundaries_monotone_and_cover (cols rows tile_cols tile_rows : Nat)
    (hc : 0 < tile_cols) (hcle : tile_cols ≤ cols)
    (hr : 0 < tile_rows) (hrle : tile_rows ≤ rows) :
    ((init_tile_structure cols rows tile_cols tile_rows).col_bd.length = tile_cols + 1 ∧
      (∀ i, i ≤ tile_cols →
        (init_tile_structure cols rows tile_cols tile_rows).col_bd.getD i 0
          = ((init_tile_structure cols rows tile_cols tile_rows).col_width.take i).sum) ∧
      (∀ i, i < tile_cols →
        (init_tile_structure cols rows tile_cols tile_rows).col_bd.getD (i + 1) 0
          = (init_tile_structure cols rows tile_cols tile_rows).col_bd.getD i 0
            + (init_tile_structure cols rows tile_cols tile_rows).col_width.getD i 0) ∧
      (∀ i, i < tile_cols →
        (init_tile_structure cols rows tile_cols tile_rows).col_bd.getD i 0
          < (init_tile_structure cols rows tile_cols tile_rows).col_bd.getD (i + 1) 0) ∧
      (init_tile_structure cols rows tile_cols tile_rows).col_bd.getD tile_cols 0 = cols) ∧
    ((init_tile_structure cols rows tile_cols tile_rows).row_bd.length = tile_rows + 1 ∧
      (∀ i, i ≤ tile_rows →
        (init_tile_structure cols rows tile_cols tile_rows).row_bd.getD i 0
          = ((init_tile_structure cols rows tile_cols tile_rows).row_height.take i).sum) ∧
      (∀ i, i < tile_rows →
        (init_tile_structure cols rows tile_cols tile_rows).row_bd.getD (i + 1) 0
          = (init_tile_structure cols rows tile_cols tile_rows).row_bd.getD i 0
            + (init_tile_structure cols rows tile_cols tile_rows).row_height.getD i 0) ∧
      (∀ i, i < tile_rows →
        (init_tile_structure cols rows tile_cols tile_rows).row_bd.getD i 0
          < (init_tile_structure cols rows tile_cols tile_rows).row_bd.getD (i + 1) 0) ∧
      (init_tile_structure cols rows tile_cols tile_rows).row_bd.getD tile_rows 0 = rows) :=
  ⟨tile_boundaries_spec cols tile_cols hc hcle, tile_boundaries_spec rows tile_rows hr hrle⟩

/-- A grid of 10 × 7 blocks in 3 × 2 tiles: column boundaries 0, 3, 6, 10 and
row boundaries 0, 3, 7. -/
theorem tile_boundaries_monotone_and_cover_witness :
    (init_tile_structure 10 7 3 2).col_bd = [0, 3, 6, 10] ∧
    (init_tile_structure 10 7 3 2).row_bd = [0, 3, 7] ∧
    (init_tile_structure 10 7 3 2).col_bd.getD 3 0 = 10 ∧
    (init_tile_structure 10 7 3 2).row_bd.getD 2 0 = 7 :=
  ⟨by decide, by decide,
   (tile_boundaries_monotone_and_cover 10 7 3 2 (by decide) (by decide) (by decide)
      (by decide)).1.2.2.2.2,
   (tile_boundaries_monotone_and_cover 10 7 3 2 (by decide) (by decide) (by decide)
      (by decide)).2.2.2.2.2⟩

end HWEncode

namespace HWEncode

/-! ## Theorems: rate control validation -/

theorem validate_rate_control_conflict (flags : RCFlags) (req : RateControlRequest)
    (b m : Nat) (hb : flags.bitrate = true) (hm : flags.maxrate = true)
    (hrb : req.bitrate = some b) (hrm : req.maxrate = some m) (hlt : m < b) :
    validate_rate_control flags req = Except.error EncodeError.UnsupportedConfiguration := by
  unfold validate_rate_control
  split
  · rfl
  · split
    · rfl
    · split
      · rfl
      · split
        · rfl
        · simp [hrb, hrm, hb, hm, hlt]

/-- C9: rate control validation rejects every configuration in which
`maxrate < bitrate` when the chosen mode descriptor, a `D3D12VAEncodeRCMode` or
a `VAAPIEncodeRCMode`, flags both bitrate and maxrate as meaningful. -/
theorem validate_rate_control_rejects_maxrate_below_bitrate :
    (∀ (rc_mode : D3D12VAEncodeRCMode) (req : RateControlRequest) (b m : Nat),
      rc_mode.bitrate ≠ 0 → rc_mode.maxrate ≠ 0 →
      req.bitrate = some b → req.maxrate = some m → m < b →
      validate_rate_control rc_mode.flags req
        = Except.error EncodeError.UnsupportedConfiguration) ∧
    (∀ (rc_mode : VAAPIEncodeRCMode) (req : RateControlRequest) (b m : Nat),
      rc_mode.bitrate ≠ 0 → rc_mode.maxrate ≠ 0 →
      req.bitrate = some b → req.maxrate = some m → m < b →
      validate_rate_control rc_mode.flags req
        = Except.error EncodeError.UnsupportedConfiguration) := by
  constructor
  · intro rc_mode req b m hb hm hrb hrm hlt
    exact validate_rate_control_conflict rc_mode.flags req b m
      (by simp [D3D12VAEncodeRCMode.flags, hb]) (by simp [D3D12VAEncodeRCMode.flags, hm])
      hrb hrm hlt
  · intro rc_mode req b m hb hm hrb hrm hlt
    exact validate_rate_control_conflict rc_mode.flags req b m
      (by simp [VAAPIEncodeRCMode.flags, hb]) (by simp [VAAPIEncodeRCMode.flags, hm])
      hrb hrm hlt

/-- A variable-bitrate descriptor with bitrate 5000 and maxrate 4000 is
rejected, for both descriptor records. -/
theorem validate_rate_control_rejects_maxrate_below_bitrate_witness :
    validate_rate_control
        (D3D12VAEncodeRCMode.flags
          { mode := 3, name := "VBR", d3d12_mode := 2, bitrate := 1, maxrate := 1,
            quality := 0, hrd := 1 })
        { bitrate := some 5000, maxrate := some 4000, quality := none,
          hrd_buffer_size := some 1 }
      = Except.error EncodeError.UnsupportedConfiguration ∧
    validate_rate_control
        (VAAPIEncodeRCMode.flags
          { mode := 3, name := "VBR", supported := 1, va_mode := 4, bitrate := 1,
            maxrate := 1, quality := 0, hrd := 1 })
        { bitrate := some 5000, maxrate := some 4000, quality := none,
          hrd_buffer_size := some 1 }
      = Except.error EncodeError.UnsupportedConfiguration :=
  ⟨validate_rate_control_rejects_maxrate_below_bitrate.1 _ _ 5000 4000
      (by decide) (by decide) rfl rfl (by decide),
   validate_rate_control_rejects_maxrate_below_bitrate.2 _ _ 5000 4000
      (by decide) (by decide) rfl rfl (by decide)⟩

/-! ## Theorems: pictures in flight -/

theorem set_state_length (s : Session) (i : Nat) (st : PictureState) :
    (s.set_state i st).pictures.length = s.pictures.length := by
  simp [Session.set_state]

theorem set_state_async_depth (s : Session) (i : Nat) (st : PictureState) :
    (s.set_state i st).async_depth = s.async_depth := rfl

/-- An accepted operation neither changes the async depth nor lets the number
of picture records grow beyond it. -/
theorem apply_op_bound (s s1 : Session) (op : Op) (h : apply_op s op = Except.ok s1)
    (hinv : s.pictures.length ≤ s.async_depth) :
    s1.async_depth = s.async_depth ∧ s1.pictures.length ≤ s1.async_depth := by
  cases op with
  | acquire =>
    simp only [apply_op, acquire] at h
    split at h
    · cases h
      exact ⟨rfl, by rw [set_state_length]; exact hinv⟩
    · split at h
      · cases h
        refine ⟨rfl, ?_⟩
        simp only [List.length_append, List.length_cons, List.length_nil]
        omega
      · cases h
  | fill_parameters i hook_ok =>
    simp only [apply_op, fill_parameters] at h
    split at h
    · split at h
      · cases h
        exact ⟨rfl, by rw [set_state_length]; exact hinv⟩
      · cases h
    · cases h
  | submit i =>
    simp only [apply_op, submit] at h
    split at h
    · split at h
      · cases h
        exact ⟨rfl, by simpa using hinv⟩
      · split at h
        · cases h
          exact ⟨rfl, by simpa using hinv⟩
        · cases h
    · cases h
  | begin_wait i =>
    simp only [apply_op, begin_wait] at h
    split at h
    · cases h
      exact ⟨rfl, by rw [set_state_length]; exact hinv⟩
    · cases h
  | end_wait i signalled =>
    simp only [apply_op, end_wait] at h
    split at h
    · split at h
      · cases h
        exact ⟨rfl, by simpa [Session.set_state] using hinv⟩
      · cases h
    · cases h
  | release i =>
    simp only [apply_op, release] at h
    split at h
    · cases h
      exact ⟨rfl, by rw [set_state_length]; exact hinv⟩
    · cases h

theorem step_bound (s : Session) (op : Op) (hinv : s.pictures.length ≤ s.async_depth) :
    (step s op).async_depth = s.async_depth ∧
    (step s op).pictures.length ≤ (step s op).async_depth := by
  unfold step
  split
  · rename_i s1 h
    exact apply_op_bound s s1 op h hinv
  · exact ⟨rfl, hinv⟩

theorem run_bound (s : Session) (ops : List Op) (hinv : s.pictures.length ≤ s.async_depth) :
    (run s ops).async_depth = s.async_depth ∧
    (run s ops).pictures.length ≤ (run s ops).async_depth := by
  induction ops generalizing s with
  | nil => exact ⟨rfl, hinv⟩
  | cons op ops ih =>
    have hstep := step_bound s op hinv
    have hrest := ih (step s op) hstep.2
    simp only [run, List.foldl_cons] at hrest ⊢
    exact ⟨hrest.1.trans hstep.1, hrest.2⟩

theorem in_flight_le_length (s : Session) : s.in_flight ≤ s.pictures.length :=
  List.countP_le_length _

/-- C10: in every session state reachable from `open()` by any sequence of
operations, the number of pictures in the `submitted` / `awaiting-completion`
states is at most the configured async depth; for the default depth
`D3D12VA_VIDEO_ENC_ASYNC_DEPTH` the bound is 8. -/
theorem in_flight_le_async_depth (async_depth : Nat) (ops : List Op) :
    (run (open_session async_depth) ops).async_depth = async_depth ∧
    (run (open_session async_depth) ops).in_flight ≤ async_depth ∧
    D3D12VA_VIDEO_ENC_ASYNC_DEPTH = 8 ∧
    (run (open_session D3D12VA_VIDEO_ENC_ASYNC_DEPTH) ops).in_flight ≤ 8 := by
  have key : ∀ d, (run (open_session d) ops).async_depth = d ∧
      (run (open_session d) ops).in_flight ≤ d := by
    intro d
    have h := run_bound (open_session d) ops (Nat.zero_le _)
    have hd : (run (open_session d) ops).async_depth = d := h.1
    refine ⟨hd, ?_⟩
    have h2 := h.2
    rw [hd] at h2
    exact le_trans (in_flight_le_length _) h2
  exact ⟨(key async_depth).1, (key async_depth).2, rfl, (key 8).2⟩

theorem two_in_flight_at_depth_two :
    (run (open_session 2)
        [Op.acquire, Op.acquire, Op.acquire, Op.fill_parameters 0 true, Op.submit 0,
         Op.fill_parameters 1 true, Op.submit 1, Op.begin_wait 0]).in_flight = 2 := by
  decide

end HWEncode

namespace D3D12VAHevc

/-! ## Theorems: size accounting -/

theorem decode_slices_cons (ctx_pic : HEVCDecodePictureContext) (call : Nat × Nat)
    (rest : List (Nat × Nat)) :
    decode_slices ctx_pic (call :: rest)
      = decode_slices (d3d12va_hevc_decode_slice ctx_pic call.1 call.2).2 rest := rfl

theorem decode_slice_rejected (ctx_pic : HEVCDecodePictureContext) (buffer size : Nat)
    (h : (d3d12va_hevc_decode_slice ctx_pic buffer size).1 ≠ 0) :
    (d3d12va_hevc_decode_slice ctx_pic buffer size).2 = ctx_pic := by
  unfold d3d12va_hevc_decode_slice at h ⊢
  split
  · rfl
  · rename_i hlt
    rw [if_neg hlt] at h
    exact absurd rfl h

/-- What an accepted call stores, field by field. -/
theorem decode_slice_accepted (ctx_pic : HEVCDecodePictureContext) (buffer size : Nat)
    (h : ctx_pic.slice_count < MAX_SLICES) :
    d3d12va_hevc_decode_slice ctx_pic buffer size =
      (0, { ctx_pic with
              bitstream := if ctx_pic.bitstream = 0 then buffer else ctx_pic.bitstream
              bitstream_size := (ctx_pic.bitstream_size + size) % 2 ^ 32
              slice_short :=
                ctx_pic.slice_short.set ctx_pic.slice_count
                  (fill_slice_short
                    (((buffer : Int)
                      - ((if ctx_pic.bitstream = 0 then buffer else ctx_pic.bitstream : Nat)
                          : Int)) % 2 ^ 32).toNat
                    size)
              slice_count := ctx_pic.slice_count + 1 }) := by
  have hlt : ¬ ctx_pic.slice_count ≥ MAX_SLICES := by omega
  have h256 : ctx_pic.slice_count < 256 := h
  have hmod : (ctx_pic.slice_count + 1) % 2 ^ 32 = ctx_pic.slice_count + 1 :=
    Nat.mod_eq_of_lt (by omega)
  simp only [d3d12va_hevc_decode_slice, if_neg hlt, hmod]

theorem take_set_self (table : List DXVA_Slice_HEVC_Short) (k : Nat)
    (e : DXVA_Slice_HEVC_Short) : (table.set k e).take k = table.take k := by
  induction table generalizing k with
  | nil => simp
  | cons s rest ih =>
    cases k with
    | zero => simp
    | succ k => simp [ih]

theorem take_succ_set_sum (table : List DXVA_Slice_HEVC_Short) (k : Nat)
    (e : DXVA_Slice_HEVC_Short) (hk : k < table.length) :
    (((table.set k e).take (k + 1)).map DXVA_Slice_HEVC_Short.SliceBytesInBuffer).sum
      = ((table.take k).map DXVA_Slice_HEVC_Short.SliceBytesInBuffer).sum
        + e.SliceBytesInBuffer := by
  have hk' : k < (table.set k e).length := by simpa using hk
  rw [List.take_succ, List.getElem?_eq_getElem hk', take_set_self]
  simp

/-- The accounting invariant: the table has its 256 entries, `slice_count` is
within it, and `bitstream_size` is the 32-bit sum of the recorded sizes. -/
theorem decode_slice_accounting (ctx_pic : HEVCDecodePictureContext) (buffer size : Nat)
    (hlen : ctx_pic.slice_short.length = MAX_SLICES)
    (hcount : ctx_pic.slice_count ≤ MAX_SLICES)
    (hsize : ctx_pic.bitstream_size
      = ((ctx_pic.slice_short.take ctx_pic.slice_count).map
          DXVA_Slice_HEVC_Short.SliceBytesInBuffer).sum % 2 ^ 32) :
    (d3d12va_hevc_decode_slice ctx_pic buffer size).2.slice_short.length = MAX_SLICES ∧
    (d3d12va_hevc_decode_slice ctx_pic buffer size).2.slice_count ≤ MAX_SLICES ∧
    (d3d12va_hevc_decode_slice ctx_pic buffer size).2.bitstream_size
      = (((d3d12va_hevc_decode_slice ctx_pic buffer size).2.slice_short.take
            (d3d12va_hevc_decode_slice ctx_pic buffer size).2.slice_count).map
          DXVA_Slice_HEVC_Short.SliceBytesInBuffer).sum % 2 ^ 32 ∧
    (d3d12va_hevc_decode_slice ctx_pic buffer size).2.slice_count
      = ctx_pic.slice_count
        + (if (d3d12va_hevc_decode_slice ctx_pic buffer size).1 = 0 then 1 else 0) := by
  by_cases hk : ctx_pic.slice_count < MAX_SLICES
  · rw [decode_slice_accepted ctx_pic buffer size hk]
    have hklen : ctx_pic.slice_count < ctx_pic.slice_short.length := by omega
    refine ⟨?_, ?_, ?_, ?_⟩
    · simpa using hlen
    · show ctx_pic.slice_count + 1 ≤ MAX_SLICES
      omega
    · show (ctx_pic.bitstream_size + size) % 2 ^ 32 = _
      dsimp only
      rw [take_succ_set_sum _ _ _ hklen, hsize]
      simp only [fill_slice_short]
      omega
    · simp
  · have hge : ctx_pic.slice_count ≥ MAX_SLICES := by omega
    have hne : AVERROR ERANGE ≠ 0 := by decide
    simp only [d3d12va_hevc_decode_slice, if_pos hge, if_neg hne, Nat.add_zero]
    exact ⟨hlen, hcount, hsize, trivial⟩

theorem decode_slices_accounting (calls : List (Nat × Nat))
    (ctx_pic : HEVCDecodePictureContext)
    (hlen : ctx_pic.slice_short.length = MAX_SLICES)
    (hcount : ctx_pic.slice_count ≤ MAX_SLICES)
    (hsize : ctx_pic.bitstream_size
      = ((ctx_pic.slice_short.take ctx_pic.slice_count).map
          DXVA_Slice_HEVC_Short.SliceBytesInBuffer).sum % 2 ^ 32) :
    (decode_slices ctx_pic calls).slice_short.length = MAX_SLICES ∧
    (decode_slices ctx_pic calls).slice_count ≤ MAX_SLICES ∧
    (decode_slices ctx_pic calls).bitstream_size
      = (((decode_slices ctx_pic calls).slice_short.take
            (decode_slices ctx_pic calls).slice_count).map
          DXVA_Slice_HEVC_Short.SliceBytesInBuffer).sum % 2 ^ 32 ∧
    (decode_slices ctx_pic calls).slice_count
      = ctx_pic.slice_count + accepted_calls ctx_pic calls := by
  induction calls generalizing ctx_pic with
  | nil => exact ⟨hlen, hcount, hsize, rfl⟩
  | cons call rest ih =>
    obtain ⟨h1, h2, h3, h4⟩ := decode_slice_accounting ctx_pic call.1 call.2 hlen hcount hsize
    obtain ⟨r1, r2, r3, r4⟩ := ih _ h1 h2 h3
    rw [decode_slices_cons]
    refine ⟨r1, r2, r3, ?_⟩
    rw [r4, h4]
    simp only [accepted_calls]
    omega

/-- C11: in every state reached from a successful `d3d12va_hevc_start_frame`
(on a 256-entry table) by a sequence of `d3d12va_hevc_decode_slice` calls,
`bitstream_size` is the sum modulo `2^32` of `SliceBytesInBuffer` over
`slice_short[0 .. slice_count)`, `slice_count` is the number of calls that
returned 0, and a further call that is rejected changes neither (it changes
nothing at all). -/
theorem size_accounting_invariant (pp : DXVA_PicParams_HEVC) (qm : DXVA_Qmatrix_HEVC)
    (ctx_pic : HEVCDecodePictureContext) (calls : List (Nat × Nat))
    (harray : ctx_pic.slice_short.length = MAX_SLICES) :
    (decode_slices (d3d12va_hevc_start_frame true pp qm ctx_pic).2 calls).bitstream_size
      = (((decode_slices (d3d12va_hevc_start_frame true pp qm ctx_pic).2
              calls).slice_short.take
            (decode_slices (d3d12va_hevc_start_frame true pp qm ctx_pic).2
              calls).slice_count).map
          DXVA_Slice_HEVC_Short.SliceBytesInBuffer).sum % 2 ^ 32 ∧
    (decode_slices (d3d12va_hevc_start_frame true pp qm ctx_pic).2 calls).slice_count
      = accepted_calls (d3d12va_hevc_start_frame true pp qm ctx_pic).2 calls ∧
    (∀ buffer size,
      (d3d12va_hevc_decode_slice
          (decode_slices (d3d12va_hevc_start_frame true pp qm ctx_pic).2 calls)
          buffer size).1 ≠ 0 →
      (d3d12va_hevc_decode_slice
          (decode_slices (d3d12va_hevc_start_frame true pp qm ctx_pic).2 calls)
          buffer size).2
        = decode_slices (d3d12va_hevc_start_frame true pp qm ctx_pic).2 calls) := by
  have hstart : (d3d12va_hevc_start_frame true pp qm ctx_pic).2
      = { ctx_pic with pp := pp, qm := qm, slice_count := 0, bitstream_size := 0,
                       bitstream := 0 } := by
    simp [d3d12va_hevc_start_frame]
  obtain ⟨_, _, h3, h4⟩ :=
    decode_slices_accounting calls (d3d12va_hevc_start_frame true pp qm ctx_pic).2
      (by rw [hstart]; exact harray) (by rw [hstart]; exact Nat.zero_le _)
      (by rw [hstart]; simp)
  refine ⟨h3, ?_, ?_⟩
  · rw [h4, hstart]
    simp
  · intro buffer size hret
    exact decode_slice_rejected _ buffer size hret

/-- Three slices of sizes `2^32 - 1`, 1 and 5 after a started frame: the sum of
the recorded sizes wraps and `bitstream_size` is 5; all three calls are
accepted. -/
theorem size_accounting_invariant_witness :
    (decode_slices
        (d3d12va_hevc_start_frame true default default blank_ctx_pic).2
        (consecutive_calls 1000 [4294967295, 1, 5])).bitstream_size
      = (((decode_slices
              (d3d12va_hevc_start_frame true default default blank_ctx_pic).2
              (consecutive_calls 1000 [4294967295, 1, 5])).slice_short.take
            (decode_slices
              (d3d12va_hevc_start_frame true default default blank_ctx_pic).2
              (consecutive_calls 1000 [4294967295, 1, 5])).slice_count).map
          DXVA_Slice_HEVC_Short.SliceBytesInBuffer).sum % 2 ^ 32 ∧
    (decode_slices
        (d3d12va_hevc_start_frame true default default blank_ctx_pic).2
        (consecutive_calls 1000 [4294967295, 1, 5])).slice_count
      = accepted_calls (d3d12va_hevc_start_frame true default default blank_ctx_pic).2
          (consecutive_calls 1000 [4294967295, 1, 5]) :=
  ⟨(size_accounting_invariant default default blank_ctx_pic
      (consecutive_calls 1000 [4294967295, 1, 5]) (List.length_replicate 256 _)).1,
   (size_accounting_invariant default default blank_ctx_pic
      (consecutive_calls 1000 [4294967295, 1, 5]) (List.length_replicate 256 _)).2.1⟩

theorem size_accounting_sample_values :
    (decode_slices started_ctx_pic (consecutive_calls 1000 [4294967295, 1, 5])).bitstream_size
      = 5 ∧
    (decode_slices started_ctx_pic (consecutive_calls 1000 [4294967295, 1, 5])).slice_count
      = 3 := by
  decide

end D3D12VAHevc

namespace D3D12VAHevc

/-! ## Theorems: finishing a frame -/

/-- C12: `d3d12va_hevc_end_frame` returns without calling
`ff_d3d12va_common_end_frame` if and only if `slice_count = 0` or
`bitstream_size = 0`, and then it returns -1; in particular `start_frame`
immediately followed by `end_frame` fails.  Otherwise it calls
`ff_d3d12va_common_end_frame` with the picture parameters and their size, and
the quantisation matrix is passed (non-`NULL`, with size `sizeof(qm)`) exactly
when bit 0 of `pp.dwCodingParamToolFlags` is set; when it is clear, `NULL` and
size 0 are passed. -/
theorem end_frame_rejects_empty_picture (sizeof_pp sizeof_qm : Nat)
    (ctx_pic : HEVCDecodePictureContext) :
    ((∃ ret, d3d12va_hevc_end_frame sizeof_pp sizeof_qm ctx_pic
          = EndFrameOutcome.returned ret)
      ↔ (ctx_pic.slice_count = 0 ∨ ctx_pic.bitstream_size = 0)) ∧
    ((ctx_pic.slice_count = 0 ∨ ctx_pic.bitstream_size = 0) →
      d3d12va_hevc_end_frame sizeof_pp sizeof_qm ctx_pic = EndFrameOutcome.returned (-1)) ∧
    (∀ pp qm,
      d3d12va_hevc_end_frame sizeof_pp sizeof_qm
          (d3d12va_hevc_start_frame true pp qm ctx_pic).2
        = EndFrameOutcome.returned (-1)) ∧
    (ctx_pic.slice_count ≠ 0 → ctx_pic.bitstream_size ≠ 0 →
      ctx_pic.pp.dwCodingParamToolFlags % 2 = 1 →
      d3d12va_hevc_end_frame sizeof_pp sizeof_qm ctx_pic
        = EndFrameOutcome.ff_d3d12va_common_end_frame ctx_pic.pp sizeof_pp
            (some ctx_pic.qm) sizeof_qm) ∧
    (ctx_pic.slice_count ≠ 0 → ctx_pic.bitstream_size ≠ 0 →
      ctx_pic.pp.dwCodingParamToolFlags % 2 = 0 →
      d3d12va_hevc_end_frame sizeof_pp sizeof_qm ctx_pic
        = EndFrameOutcome.ff_d3d12va_common_end_frame ctx_pic.pp sizeof_pp none 0) := by
  have hempty : (ctx_pic.slice_count = 0 ∨ ctx_pic.bitstream_size = 0) →
      d3d12va_hevc_end_frame sizeof_pp sizeof_qm ctx_pic = EndFrameOutcome.returned (-1) := by
    intro h
    have h' : ctx_pic.slice_count ≤ 0 ∨ ctx_pic.bitstream_size ≤ 0 := by omega
    simp only [d3d12va_hevc_end_frame, if_pos h']
  have hcall : ctx_pic.slice_count ≠ 0 → ctx_pic.bitstream_size ≠ 0 →
      d3d12va_hevc_end_frame sizeof_pp sizeof_qm ctx_pic
        = EndFrameOutcome.ff_d3d12va_common_end_frame ctx_pic.pp sizeof_pp
            (if ctx_pic.pp.dwCodingParamToolFlags % 2 ≠ 0 then some ctx_pic.qm else none)
            (if ctx_pic.pp.dwCodingParamToolFlags % 2 ≠ 0 then sizeof_qm else 0) := by
    intro h1 h2
    have h' : ¬ (ctx_pic.slice_count ≤ 0 ∨ ctx_pic.bitstream_size ≤ 0) := by omega
    simp only [d3d12va_hevc_end_frame, if_neg h']
  refine ⟨⟨?_, ?_⟩, hempty, ?_, ?_, ?_⟩
  · rintro ⟨ret, hret⟩
    by_contra hne
    have h1 : ctx_pic.slice_count ≠ 0 := fun h => hne (Or.inl h)
    have h2 : ctx_pic.bitstream_size ≠ 0 := fun h => hne (Or.inr h)
    rw [hcall h1 h2] at hret
    cases hret
  · intro h
    exact ⟨-1, hempty h⟩
  · intro pp qm
    have h' : (d3d12va_hevc_start_frame true pp qm ctx_pic).2.slice_count ≤ 0
        ∨ (d3d12va_hevc_start_frame true pp qm ctx_pic).2.bitstream_size ≤ 0 :=
      Or.inl (le_of_eq (start_frame_ok pp qm ctx_pic).1)
    simp only [d3d12va_hevc_end_frame, if_pos h']
  · intro h1 h2 hbit
    rw [hcall h1 h2]
    have hne : ctx_pic.pp.dwCodingParamToolFlags % 2 ≠ 0 := by omega
    simp only [if_pos hne]
  · intro h1 h2 hbit
    rw [hcall h1 h2]
    have hne : ¬ ctx_pic.pp.dwCodingParamToolFlags % 2 ≠ 0 := by omega
    simp only [if_neg hne]

/-- The three-slice sample has the scaling-list flag set and is passed on with
its quantisation matrix; a frame that was only started is rejected with -1. -/
theorem end_frame_rejects_empty_picture_witness :
    d3d12va_hevc_end_frame 100 200 sample_ctx_pic
      = EndFrameOutcome.ff_d3d12va_common_end_frame sample_ctx_pic.pp 100
          (some sample_ctx_pic.qm) 200 ∧
    d3d12va_hevc_end_frame 100 200 started_ctx_pic = EndFrameOutcome.returned (-1) :=
  ⟨(end_frame_rejects_empty_picture 100 200 sample_ctx_pic).2.2.2.1
      (by decide) (by decide) (by decide),
   (end_frame_rejects_empty_picture 100 200 started_ctx_pic).2.1 (Or.inl (by decide))⟩

end D3D12VAHevc

namespace D3D12VAHevc

/-! ## Theorems: the write extent of the packing loop -/

theorem written_append (l₁ l₂ : List WriteEvent) (a : Nat) :
    written (l₁ ++ l₂) a = (written l₁ a || written l₂ a) := by
  simp [written, List.any_append]

theorem written_pack_slice_writes (st : PackState) (i a : Nat) :
    written (pack_slice_writes st i) a = true
      ↔ (st.mapped_ptr ≤ a ∧ a < st.mapped_ptr + 4)
        ∨ (st.mapped_ptr + 3 ≤ a
            ∧ a < st.mapped_ptr + 3 + (st.slice_short.getD i default).SliceBytesInBuffer) := by
  simp [written, pack_slice_writes, WriteEvent.covers, START_CODE_SIZE]

/-- A byte that the two writes of an iteration do not touch keeps its value. -/
theorem pack_slice_unwritten (mem : Nat → Nat) (bitstream : Nat) (st : PackState) (i a : Nat)
    (h : written (pack_slice_writes st i) a = false) :
    (pack_slice mem bitstream st i).mapped a = st.mapped a := by
  have hnot : ¬ ((st.mapped_ptr ≤ a ∧ a < st.mapped_ptr + 4)
        ∨ (st.mapped_ptr + 3 ≤ a
            ∧ a < st.mapped_ptr + 3 + (st.slice_short.getD i default).SliceBytesInBuffer)) := by
    rw [← written_pack_slice_writes, h]
    exact Bool.false_ne_true
  simp only [pack_slice, memcpy, store32le, START_CODE_SIZE]
  rw [if_neg (fun hc => hnot (Or.inr hc)), if_neg (fun hc => hnot (Or.inl hc))]

/-- A byte that no write of the loop touches keeps its value. -/
theorem pack_slices_unwritten (mem : Nat → Nat) (bitstream : Nat) (st : PackState) (k a : Nat)
    (h : written (pack_slices_writes mem bitstream st k) a = false) :
    (pack_slices mem bitstream k st).mapped a = st.mapped a := by
  induction k with
  | zero => simp [pack_slices]
  | succ k ih =>
    simp only [pack_slices_writes, written_append, Bool.or_eq_false_iff] at h
    rw [pack_slices_succ, pack_slice_unwritten mem bitstream _ k a h.2]
    exact ih h.1

/-- The two writes of iteration `k`, in terms of the original table. -/
theorem pack_slice_writes_at (mem : Nat → Nat) (bitstream : Nat)
    (table : List DXVA_Slice_HEVC_Short) (m0 : Nat → Nat) (k : Nat) (hk : k < table.length) :
    pack_slice_writes (pack_slices mem bitstream k ⟨table, m0, 0⟩) k
      = [{ off := packed_offset table k, len := 4 },
         { off := packed_offset table k + 3,
           len := (table.getD k default).SliceBytesInBuffer }] := by
  obtain ⟨_, hrest, _, hptr, _⟩ := pack_slices_inv mem bitstream table m0 k (by omega)
  simp only [pack_slice_writes, hptr, hrest k (le_refl k), START_CODE_SIZE]

theorem pack_slices_writes_length (mem : Nat → Nat) (bitstream : Nat) (st : PackState)
    (k : Nat) : (pack_slices_writes mem bitstream st k).length = 2 * k := by
  induction k with
  | zero => rfl
  | succ k ih =>
    simp only [pack_slices_writes, List.length_append, ih, pack_slice_writes,
      List.length_cons, List.length_nil]
    omega

/-- The writes of the loop in program order: write `2 i` is the start code of
slice `i`, write `2 i + 1` its data. -/
theorem pack_slices_writes_getD (mem : Nat → Nat) (bitstream : Nat)
    (table : List DXVA_Slice_HEVC_Short) (m0 : Nat → Nat) (k i : Nat)
    (hk : k ≤ table.length) (hi : i < k) :
    (pack_slices_writes mem bitstream ⟨table, m0, 0⟩ k).getD (2 * i) default
        = { off := packed_offset table i, len := 4 } ∧
    (pack_slices_writes mem bitstream ⟨table, m0, 0⟩ k).getD (2 * i + 1) default
        = { off := packed_offset table i + 3,
            len := (table.getD i default).SliceBytesInBuffer } := by
  induction k with
  | zero => omega
  | succ k ih =>
    have hlen := pack_slices_writes_length mem bitstream ⟨table, m0, 0⟩ k
    simp only [pack_slices_writes]
    by_cases hik : i < k
    · obtain ⟨h1, h2⟩ := ih (by omega) hik
      rw [List.getD_append _ _ _ _ (by omega), List.getD_append _ _ _ _ (by omega)]
      exact ⟨h1, h2⟩
    · have hieq : i = k := by omega
      subst hieq
      rw [List.getD_append_right _ _ _ _ (by omega),
        List.getD_append_right _ _ _ _ (by omega), hlen,
        pack_slice_writes_at mem bitstream table m0 i (by omega)]
      have e1 : 2 * i - 2 * i = 0 := by omega
      have e2 : 2 * i + 1 - 2 * i = 1 := by omega
      rw [e1, e2]
      exact ⟨rfl, rfl⟩

/-- The bytes touched by the first `k + 1` iterations: everything below the
packed size of `k + 1` slices, and the four bytes of the last start code. -/
theorem written_pack_slices_writes (mem : Nat → Nat) (bitstream : Nat)
    (table : List DXVA_Slice_HEVC_Short) (m0 : Nat → Nat) (k a : Nat)
    (hk : k < table.length) :
    written (pack_slices_writes mem bitstream ⟨table, m0, 0⟩ (k + 1)) a = true
      ↔ (a < packed_offset table (k + 1) ∨ a < packed_offset table k + 4) := by
  induction k with
  | zero =>
    have hsucc := packed_offset_succ table 0 hk
    have hzero := packed_offset_zero table
    simp only [START_CODE_SIZE] at hsucc
    simp only [pack_slices_writes, List.nil_append]
    rw [pack_slice_writes_at mem bitstream table m0 0 hk]
    simp only [written, List.any_cons, List.any_nil, WriteEvent.covers, Bool.or_false,
      Bool.or_eq_true, Bool.and_eq_true, decide_eq_true_eq]
    omega
  | succ k ih =>
    have hprev := ih (by omega)
    have hs1 := packed_offset_succ table k (by omega)
    have hs2 := packed_offset_succ table (k + 1) hk
    simp only [START_CODE_SIZE] at hs1 hs2
    rw [pack_slices_writes, written_append, Bool.or_eq_true, hprev,
      pack_slice_writes_at mem bitstream table m0 (k + 1) hk]
    simp only [written, List.any_cons, List.any_nil, WriteEvent.covers, Bool.or_false,
      Bool.or_eq_true, Bool.and_eq_true, decide_eq_true_eq]
    omega

end D3D12VAHevc

namespace D3D12VAHevc

theorem update_input_arguments_packed_size (sizeof_slice : Nat) (mem : Nat → Nat)
    (ctx_pic : HEVCDecodePictureContext)
    (input_args : D3D12_VIDEO_DECODE_INPUT_STREAM_ARGUMENTS) (buffer : ID3D12Resource)
    (hmap : FAILED buffer.map_hr = false)
    (hlen : ctx_pic.slice_short.length = MAX_SLICES)
    (hn : ctx_pic.slice_count ≤ MAX_SLICES)
    (h32 : ∀ s ∈ ctx_pic.slice_short, s.SliceBytesInBuffer < 2 ^ 32) :
    (update_input_arguments sizeof_slice mem ctx_pic input_args
        buffer).input_args.CompressedBitstream.Size
      = packed_offset ctx_pic.slice_short ctx_pic.slice_count := by
  have hk : ctx_pic.slice_count ≤ ctx_pic.slice_short.length := by omega
  obtain ⟨_, _, _, hptr, _⟩ :=
    pack_slices_inv mem ctx_pic.bitstream ctx_pic.slice_short buffer.data
      ctx_pic.slice_count hk
  have hbound := packed_offset_le ctx_pic.slice_short ctx_pic.slice_count h32
  have h256 : ctx_pic.slice_count ≤ 256 := hn
  have hsmall : packed_offset ctx_pic.slice_short ctx_pic.slice_count < 2 ^ 64 := by
    have : ctx_pic.slice_count * (2 ^ 32 + 2) ≤ 256 * (2 ^ 32 + 2) :=
      Nat.mul_le_mul_right _ h256
    omega
  rw [update_input_arguments_mapped sizeof_slice mem ctx_pic input_args buffer hmap]
  dsimp only
  rw [hptr]
  exact Nat.mod_eq_of_lt hsmall

end D3D12VAHevc

namespace D3D12VAHevc

theorem update_input_arguments_writes_mapped (mem : Nat → Nat)
    (ctx_pic : HEVCDecodePictureContext) (buffer : ID3D12Resource)
    (hmap : FAILED buffer.map_hr = false) :
    update_input_arguments_writes mem ctx_pic buffer
      = pack_slices_writes mem ctx_pic.bitstream
          ⟨ctx_pic.slice_short, buffer.data, 0⟩ ctx_pic.slice_count := by
  simp [update_input_arguments_writes, hmap]

/-- C13: for every non-empty slice table (at most 256 entries, 32-bit sizes)
whose last slice has non-zero size, the byte offsets of the mapped buffer
written by a successful `update_input_arguments` are exactly
`[0, CompressedBitstream.Size)`, and every byte at an offset `>= Size` keeps
its value.  The writes are, in program order, the 4-byte store of `START_CODE`
and the `memcpy` of each slice; the fourth byte of the store for slice `i`, at
offset `(sum over j < i of (s_j + 3)) + 3`, is overwritten by the data of slice
`i` when `s_i > 0`, and otherwise (then `i` is not the last slice) by the start
code of slice `i + 1`. -/
theorem update_input_arguments_write_extent (sizeof_slice : Nat) (mem : Nat → Nat)
    (ctx_pic : HEVCDecodePictureContext)
    (input_args : D3D12_VIDEO_DECODE_INPUT_STREAM_ARGUMENTS) (buffer : ID3D12Resource)
    (hmap : FAILED buffer.map_hr = false)
    (hlen : ctx_pic.slice_short.length = MAX_SLICES)
    (hpos : 0 < ctx_pic.slice_count)
    (hn : ctx_pic.slice_count ≤ MAX_SLICES)
    (h32 : ∀ s ∈ ctx_pic.slice_short, s.SliceBytesInBuffer < 2 ^ 32)
    (hlast : 0 < (ctx_pic.slice_short.getD (ctx_pic.slice_count - 1)
      default).SliceBytesInBuffer) :
    (∀ a, written (update_input_arguments_writes mem ctx_pic buffer) a = true
      ↔ a < (update_input_arguments sizeof_slice mem ctx_pic input_args
                buffer).input_args.CompressedBitstream.Size) ∧
    (∀ a, (update_input_arguments sizeof_slice mem ctx_pic input_args
              buffer).input_args.CompressedBitstream.Size ≤ a →
      (update_input_arguments sizeof_slice mem ctx_pic input_args buffer).buffer.data a
        = buffer.data a) ∧
    (update_input_arguments_writes mem ctx_pic buffer).length = 2 * ctx_pic.slice_count ∧
    (∀ i, i < ctx_pic.slice_count →
      (update_input_arguments_writes mem ctx_pic buffer).getD (2 * i) default
        = { off := packed_offset ctx_pic.slice_short i, len := 4 } ∧
      (update_input_arguments_writes mem ctx_pic buffer).getD (2 * i + 1) default
        = { off := packed_offset ctx_pic.slice_short i + 3,
            len := (ctx_pic.slice_short.getD i default).SliceBytesInBuffer } ∧
      (0 < (ctx_pic.slice_short.getD i default).SliceBytesInBuffer →
        ((update_input_arguments_writes mem ctx_pic buffer).getD (2 * i + 1)
            default).covers (packed_offset ctx_pic.slice_short i + 3) = true) ∧
      ((ctx_pic.slice_short.getD i default).SliceBytesInBuffer = 0 →
        i + 1 < ctx_pic.slice_count ∧
        ((update_input_arguments_writes mem ctx_pic buffer).getD (2 * (i + 1))
            default).covers (packed_offset ctx_pic.slice_short i + 3) = true)) := by
  have hk : ctx_pic.slice_count ≤ ctx_pic.slice_short.length := by omega
  obtain ⟨n, hn1⟩ : ∃ n, ctx_pic.slice_count = n + 1 := ⟨ctx_pic.slice_count - 1, by omega⟩
  have hnlt : n < ctx_pic.slice_short.length := by omega
  have hsize : (update_input_arguments sizeof_slice mem ctx_pic input_args
        buffer).input_args.CompressedBitstream.Size
      = packed_offset ctx_pic.slice_short ctx_pic.slice_count :=
    (update_input_arguments_packed_size sizeof_slice mem ctx_pic input_args buffer hmap hlen
      hn h32)
  have hwr := update_input_arguments_writes_mapped mem ctx_pic buffer hmap
  have hlastn : 0 < (ctx_pic.slice_short.getD n default).SliceBytesInBuffer := by
    have e : ctx_pic.slice_count - 1 = n := by omega
    rw [e] at hlast
    exact hlast
  have hsuccn := packed_offset_succ ctx_pic.slice_short n hnlt
  simp only [START_CODE_SIZE] at hsuccn
  have hiff : ∀ a, written (update_input_arguments_writes mem ctx_pic buffer) a = true
      ↔ a < packed_offset ctx_pic.slice_short ctx_pic.slice_count := by
    intro a
    rw [hwr, hn1,
      written_pack_slices_writes mem ctx_pic.bitstream ctx_pic.slice_short buffer.data n a hnlt]
    omega
  refine ⟨?_, ?_, ?_, ?_⟩
  · intro a
    rw [hsize]
    exact hiff a
  · intro a ha
    rw [hsize] at ha
    have hnot : written (update_input_arguments_writes mem ctx_pic buffer) a = false := by
      cases hw : written (update_input_arguments_writes mem ctx_pic buffer) a with
      | false => rfl
      | true =>
        have := (hiff a).mp hw
        omega
    rw [hwr] at hnot
    rw [update_input_arguments_mapped sizeof_slice mem ctx_pic input_args buffer hmap]
    exact pack_slices_unwritten mem ctx_pic.bitstream _ ctx_pic.slice_count a hnot
  · rw [hwr]
    exact pack_slices_writes_length _ _ _ _
  · intro i hi
    rw [hwr]
    obtain ⟨h1, h2⟩ := pack_slices_writes_getD mem ctx_pic.bitstream ctx_pic.slice_short
      buffer.data ctx_pic.slice_count i hk hi
    refine ⟨h1, h2, ?_, ?_⟩
    · intro hsz
      rw [h2]
      simp only [WriteEvent.covers, Bool.and_eq_true, decide_eq_true_eq]
      omega
    · intro hzero
      have hnotlast : i ≠ n := by
        intro h
        rw [h] at hzero
        omega
      have hi1 : i + 1 < ctx_pic.slice_count := by omega
      refine ⟨hi1, ?_⟩
      obtain ⟨h3, _⟩ := pack_slices_writes_getD mem ctx_pic.bitstream ctx_pic.slice_short
        buffer.data ctx_pic.slice_count (i + 1) hk hi1
      have hsucci := packed_offset_succ ctx_pic.slice_short i (by omega)
      simp only [START_CODE_SIZE] at hsucci
      rw [h3]
      simp only [WriteEvent.covers, Bool.and_eq_true, decide_eq_true_eq]
      omega

/-- The three-slice sample (sizes 2, 0, 3): the bytes written are exactly the
offsets below the packed size, and the writes are six. -/
theorem update_input_arguments_write_extent_witness :
    (∀ a, written (update_input_arguments_writes sample_mem sample_ctx_pic
            (sample_buffer 0)) a = true
      ↔ a < (update_input_arguments 10 sample_mem sample_ctx_pic sample_input_args
                (sample_buffer 0)).input_args.CompressedBitstream.Size) ∧
    (update_input_arguments_writes sample_mem sample_ctx_pic (sample_buffer 0)).length
      = 2 * sample_ctx_pic.slice_count :=
  ⟨(update_input_arguments_write_extent 10 sample_mem sample_ctx_pic sample_input_args
      (sample_buffer 0) (by decide) sample_ctx_pic_length (by decide) (by decide)
      sample_ctx_pic_sizes (by decide)).1,
   (update_input_arguments_write_extent 10 sample_mem sample_ctx_pic sample_input_args
      (sample_buffer 0) (by decide) sample_ctx_pic_length (by decide) (by decide)
      sample_ctx_pic_sizes (by decide)).2.2.1⟩

theorem sample_writes :
    update_input_arguments_writes sample_mem sample_ctx_pic (sample_buffer 0)
      = [{ off := 0, len := 4 }, { off := 3, len := 2 }, { off := 5, len := 4 },
         { off := 8, len := 0 }, { off := 8, len := 4 }, { off := 11, len := 3 }] := by
  decide

end D3D12VAHevc

namespace D3D12VAHevc

/-! ## Theorems: the effect of an accepted slice -/

theorem ptrdiff_consecutive (base x : Nat) :
    ((((base + x : Nat) : Int) - (base : Int)) % 2 ^ 32).toNat = x % 2 ^ 32 := by
  omega

theorem decode_slice_count_mono (ctx_pic : HEVCDecodePictureContext) (buffer size : Nat) :
    ctx_pic.slice_count ≤ (d3d12va_hevc_decode_slice ctx_pic buffer size).2.slice_count := by
  by_cases hk : ctx_pic.slice_count < MAX_SLICES
  · rw [decode_slice_accepted ctx_pic buffer size hk]
    exact Nat.le_succ _
  · have hge : ctx_pic.slice_count ≥ MAX_SLICES := by omega
    simp only [d3d12va_hevc_decode_slice, if_pos hge]
    exact le_refl _

theorem decode_slice_keeps_earlier (ctx_pic : HEVCDecodePictureContext) (buffer size j : Nat)
    (hj : j ≠ ctx_pic.slice_count) :
    (d3d12va_hevc_decode_slice ctx_pic buffer size).2.slice_short.getD j default
      = ctx_pic.slice_short.getD j default := by
  by_cases hk : ctx_pic.slice_count < MAX_SLICES
  · rw [decode_slice_accepted ctx_pic buffer size hk]
    exact getD_set_other _ _ _ _ (fun h => hj h.symm)
  · have hge : ctx_pic.slice_count ≥ MAX_SLICES := by omega
    simp only [d3d12va_hevc_decode_slice, if_pos hge]

theorem decode_slices_keep_earlier (calls : List (Nat × Nat))
    (ctx_pic : HEVCDecodePictureContext) (j : Nat) (hj : j < ctx_pic.slice_count) :
    (decode_slices ctx_pic calls).slice_short.getD j default
      = ctx_pic.slice_short.getD j default := by
  induction calls generalizing ctx_pic with
  | nil => rfl
  | cons call rest ih =>
    rw [decode_slices_cons,
      ih _ (lt_of_lt_of_le hj (decode_slice_count_mono ctx_pic call.1 call.2))]
    exact decode_slice_keeps_earlier ctx_pic call.1 call.2 j (by omega)

/-- Slices laid out back to back from `buffer`, fed to a context whose base
pointer is `base` (stored, or about to be fixed by the first call): slice `i`
of them is recorded at the 32-bit truncation of
`buffer + (sum of the sizes before it) - base`. -/
theorem consecutive_locations (sizes : List Nat) (ctx_pic : HEVCDecodePictureContext)
    (buffer : Nat) (hbuf : buffer ≠ 0)
    (hlen : ctx_pic.slice_short.length = MAX_SLICES)
    (hroom : ctx_pic.slice_count + sizes.length ≤ MAX_SLICES) (i : Nat)
    (hi : i < sizes.length) :
    ((decode_slices ctx_pic (consecutive_calls buffer sizes)).slice_short.getD
        (ctx_pic.slice_count + i) default).BSNALunitDataLocation
      = ((((buffer + (sizes.take i).sum : Nat) : Int)
          - ((if ctx_pic.bitstream = 0 then buffer else ctx_pic.bitstream : Nat) : Int))
          % 2 ^ 32).toNat := by
  induction sizes generalizing ctx_pic buffer i with
  | nil => simp at hi
  | cons s rest ih =>
    have hk : ctx_pic.slice_count < MAX_SLICES := by
      simp only [List.length_cons] at hroom
      omega
    have hklen : ctx_pic.slice_count < ctx_pic.slice_short.length := by omega
    have hstep := decode_slice_accepted ctx_pic buffer s hk
    simp only [consecutive_calls, decode_slices_cons]
    cases i with
    | zero =>
      rw [decode_slices_keep_earlier _ _ _
        (by rw [hstep]; exact Nat.lt_succ_self _), hstep]
      simp only [Nat.add_zero, List.take_zero, List.sum_nil]
      rw [getD_set_self _ _ _ hklen]
      rfl
    | succ i =>
      have hbase : (d3d12va_hevc_decode_slice ctx_pic buffer s).2.bitstream ≠ 0 := by
        rw [hstep]
        show (if ctx_pic.bitstream = 0 then buffer else ctx_pic.bitstream) ≠ 0
        split
        · exact hbuf
        · assumption
      have hcount : (d3d12va_hevc_decode_slice ctx_pic buffer s).2.slice_count
          = ctx_pic.slice_count + 1 := by
        rw [hstep]
      have hrec := ih (d3d12va_hevc_decode_slice ctx_pic buffer s).2 (buffer + s)
        (by omega) (by rw [decode_slice_length]; exact hlen)
        (by
          rw [hcount]
          simp only [List.length_cons] at hroom
          omega)
        i (by simpa using hi)
      rw [hcount, if_neg hbase] at hrec
      have hidx : ctx_pic.slice_count + 1 + i = ctx_pic.slice_count + (i + 1) := by omega
      rw [hidx] at hrec
      rw [hrec]
      have hb : (d3d12va_hevc_decode_slice ctx_pic buffer s).2.bitstream
          = (if ctx_pic.bitstream = 0 then buffer else ctx_pic.bitstream) := by
        rw [hstep]
      rw [hb]
      simp only [List.take_succ_cons, List.sum_cons, Nat.add_assoc]

end D3D12VAHevc

namespace D3D12VAHevc

/-- C14, as stated, fails in its last clause: three slices of sizes `2^32 - 1`,
1 and 5 laid out back to back from address 1000 are all accepted after
`start_frame`, and the recorded location of slice 2 is 0, not the sum
`2^32` of the sizes of the slices before it. -/
theorem consecutive_location_wraps :
    consecutive_calls 1000 [4294967295, 1, 5]
      = [(1000, 4294967295), (4294968295, 1), (4294968296, 5)] ∧
    accepted_calls started_ctx_pic (consecutive_calls 1000 [4294967295, 1, 5]) = 3 ∧
    ((decode_slices started_ctx_pic
        (consecutive_calls 1000 [4294967295, 1, 5])).slice_short.getD 2
          default).BSNALunitDataLocation = 0 ∧
    ([4294967295, 1, 5].take 2).sum = 4294967296 ∧
    ((decode_slices started_ctx_pic
        (consecutive_calls 1000 [4294967295, 1, 5])).slice_short.getD 2
          default).BSNALunitDataLocation
      ≠ ([4294967295, 1, 5].take 2).sum := by
  decide

/-- C14 (amended): for every context with `slice_count = k < 256`,
`d3d12va_hevc_decode_slice` returns 0, sets `slice_count` to `k + 1`, adds
`size` to `bitstream_size` modulo `2^32`, and writes entry `k` with
`BSNALunitDataLocation = buffer - base` truncated to 32 bits,
`SliceBytesInBuffer = size` and `wBadSliceChopping = 0`, where `base` is the
stored bitstream pointer or, if none is stored yet, `buffer` itself (then the
location is 0 and `base` becomes `buffer`); every other entry, in particular
entries `0 .. k-1`, and an already stored base pointer are unchanged.  When
each slice buffer begins where the previous one ended, starting from a
non-`NULL` buffer right after `start_frame`, the recorded location of slice
`i` is the sum of the sizes of the slices before it modulo `2^32`, hence that
sum itself whenever it is below `2^32`. -/
theorem decode_slice_effect (ctx_pic : HEVCDecodePictureContext) (buffer size : Nat)
    (hk : ctx_pic.slice_count < MAX_SLICES)
    (hlen : ctx_pic.slice_short.length = MAX_SLICES) :
    (d3d12va_hevc_decode_slice ctx_pic buffer size).1 = 0 ∧
    (d3d12va_hevc_decode_slice ctx_pic buffer size).2.slice_count
      = ctx_pic.slice_count + 1 ∧
    (d3d12va_hevc_decode_slice ctx_pic buffer size).2.bitstream_size
      = (ctx_pic.bitstream_size + size) % 2 ^ 32 ∧
    (d3d12va_hevc_decode_slice ctx_pic buffer size).2.slice_short.getD
        ctx_pic.slice_count default
      = { BSNALunitDataLocation :=
            (((buffer : Int)
              - ((if ctx_pic.bitstream = 0 then buffer else ctx_pic.bitstream : Nat) : Int))
              % 2 ^ 32).toNat
          SliceBytesInBuffer := size
          wBadSliceChopping := 0 } ∧
    (ctx_pic.bitstream = 0 →
      ((d3d12va_hevc_decode_slice ctx_pic buffer size).2.slice_short.getD
          ctx_pic.slice_count default).BSNALunitDataLocation = 0 ∧
      (d3d12va_hevc_decode_slice ctx_pic buffer size).2.bitstream = buffer) ∧
    (ctx_pic.bitstream ≠ 0 →
      (d3d12va_hevc_decode_slice ctx_pic buffer size).2.bitstream = ctx_pic.bitstream) ∧
    (∀ j, j ≠ ctx_pic.slice_count →
      (d3d12va_hevc_decode_slice ctx_pic buffer size).2.slice_short.getD j default
        = ctx_pic.slice_short.getD j default) ∧
    (∀ (pp : DXVA_PicParams_HEVC) (qm : DXVA_Qmatrix_HEVC)
        (before : HEVCDecodePictureContext) (first : Nat) (sizes : List Nat),
      before.slice_short.length = MAX_SLICES → first ≠ 0 → sizes.length ≤ MAX_SLICES →
      ∀ i, i < sizes.length →
        ((decode_slices (d3d12va_hevc_start_frame true pp qm before).2
            (consecutive_calls first sizes)).slice_short.getD i
              default).BSNALunitDataLocation
          = (sizes.take i).sum % 2 ^ 32 ∧
        ((sizes.take i).sum < 2 ^ 32 →
          ((decode_slices (d3d12va_hevc_start_frame true pp qm before).2
              (consecutive_calls first sizes)).slice_short.getD i
                default).BSNALunitDataLocation
            = (sizes.take i).sum)) := by
  have hklen : ctx_pic.slice_count < ctx_pic.slice_short.length := by omega
  have hstep := decode_slice_accepted ctx_pic buffer size hk
  have hentry : (d3d12va_hevc_decode_slice ctx_pic buffer size).2.slice_short.getD
        ctx_pic.slice_count default
      = { BSNALunitDataLocation :=
            (((buffer : Int)
              - ((if ctx_pic.bitstream = 0 then buffer else ctx_pic.bitstream : Nat) : Int))
              % 2 ^ 32).toNat
          SliceBytesInBuffer := size
          wBadSliceChopping := 0 } := by
    rw [hstep]
    exact getD_set_self _ _ _ hklen
  have hbits : (d3d12va_hevc_decode_slice ctx_pic buffer size).2.bitstream
      = (if ctx_pic.bitstream = 0 then buffer else ctx_pic.bitstream) := by
    rw [hstep]
  refine ⟨by rw [hstep], by rw [hstep], by rw [hstep], hentry, ?_, ?_, ?_, ?_⟩
  · intro hnull
    rw [hentry, hbits, if_pos hnull]
    refine ⟨?_, rfl⟩
    show (((buffer : Int) - (buffer : Int)) % 2 ^ 32).toNat = 0
    omega
  · intro hset
    rw [hbits, if_neg hset]
  · intro j hj
    exact decode_slice_keeps_earlier ctx_pic buffer size j hj
  · intro pp qm before first sizes harray hfirst hsizes i hi
    have hstart : (d3d12va_hevc_start_frame true pp qm before).2
        = { before with pp := pp, qm := qm, slice_count := 0, bitstream_size := 0,
                         bitstream := 0 } := by
      simp [d3d12va_hevc_start_frame]
    have hloc := consecutive_locations sizes (d3d12va_hevc_start_frame true pp qm before).2
      first hfirst (by rw [hstart]; exact harray)
      (by rw [hstart]; simpa using hsizes) i hi
    have h0 : (d3d12va_hevc_start_frame true pp qm before).2.slice_count = 0 := by
      rw [hstart]
    have hb0 : (d3d12va_hevc_start_frame true pp qm before).2.bitstream = 0 := by
      rw [hstart]
    rw [h0, hb0, if_pos rfl, Nat.zero_add, ptrdiff_consecutive] at hloc
    refine ⟨hloc, ?_⟩
    intro hfit
    rw [hloc]
    exact Nat.mod_eq_of_lt hfit

/-- The first slice after `start_frame` is recorded at location 0 and fixes the
base pointer; three slices of sizes 2, 0 and 3 laid out back to back are
recorded at 0, 2 and 2. -/
theorem decode_slice_effect_witness :
    (d3d12va_hevc_decode_slice started_ctx_pic 1000 2).1 = 0 ∧
    (d3d12va_hevc_decode_slice started_ctx_pic 1000 2).2.slice_count
      = started_ctx_pic.slice_count + 1 ∧
    (d3d12va_hevc_decode_slice started_ctx_pic 1000 2).2.bitstream = 1000 ∧
    ((decode_slices (d3d12va_hevc_start_frame true default default blank_ctx_pic).2
        (consecutive_calls 1000 [2, 0, 3])).slice_short.getD 2
          default).BSNALunitDataLocation
      = ([2, 0, 3].take 2).sum % 2 ^ 32 :=
  ⟨(decode_slice_effect started_ctx_pic 1000 2 (by decide)
      (List.length_replicate 256 _)).1,
   (decode_slice_effect started_ctx_pic 1000 2 (by decide)
      (List.length_replicate 256 _)).2.1,
   ((decode_slice_effect started_ctx_pic 1000 2 (by decide)
      (List.length_replicate 256 _)).2.2.2.2.1 (by decide)).2,
   ((decode_slice_effect started_ctx_pic 1000 2 (by decide)
      (List.length_replicate 256 _)).2.2.2.2.2.2.2 default default blank_ctx_pic 1000
      [2, 0, 3] (List.length_replicate 256 _) (by decide) (by decide) 2 (by decide)).1⟩

theorem sample_consecutive_locations :
    ((decode_slices started_ctx_pic (consecutive_calls 1000 [2, 0, 3])).slice_short.take 3).map
        DXVA_Slice_HEVC_Short.BSNALunitDataLocation
      = [0, 2, 2] := by
  decide

end D3D12VAHevc
